import Mathlib

/-!
Shallow embedding of the data-generation and scoring core of the
`generate_insurance_data.py` / `evals/run_eval.py` repository, together with
proofs of the behavioural properties stated in its specification.

Modelling conventions:
* calendar dates are integers (days since a fixed epoch); `timedelta(days=k)`
  is integer addition;
* monetary amounts and ratios are rationals; Python `round(x, n)` is modelled
  by `roundTo n` on rationals;
* every call to the seeded random generator is modelled by the *outcome* of
  the call, recorded in an explicit draw record; the range constraint of each
  call (`random.randint(a, b)`, `random.uniform(a, b)`, `random.choice`) is
  captured by a validity predicate on the draw record;
* free-text and purely cosmetic fields produced by `faker` (names, addresses,
  descriptions, formatted code strings such as `policy_number`,
  `product_code`, `territory_code`, `rating_class_code`, check numbers) are
  omitted from the row structures: no specified property mentions them.
-/

namespace InsuranceData

/-- Calendar dates are modelled as days since a fixed epoch. -/
abbrev Date := ℤ

/-- Python `round(x, n)` modelled on exact rationals. -/
def roundTo (n : ℕ) (x : ℚ) : ℚ := (round (x * (10 : ℚ) ^ n)) / (10 : ℚ) ^ n

/-- Two-decimal rounding used for all monetary amounts. -/
def round2 (x : ℚ) : ℚ := roundTo 2 x

/-- `POLICY_STATUSES` from the source. -/
inductive PolicyStatus where
  | ACTIVE | CANCELLED | EXPIRED | NON_RENEWED | PENDING
  deriving DecidableEq

/-- Cancellation reasons drawn for endorsed versions. -/
inductive CancelReason where
  | NON_PAY | INSURED_REQ | UW_ACTION | REWRITE
  deriving DecidableEq

/-- `SOURCE_SYSTEMS` from the source. -/
inductive SourceSystem where
  | LEGACY_AS400 | GUIDEWIRE_PC | DUCK_CREEK | MANUAL_ENTRY | BROKER_FEED
  deriving DecidableEq

/-- `LOB_CODES` from the source. -/
inductive Lob where
  | HO | AUTO | CGL | WC | BOP | CPP | FARM | IM
  deriving DecidableEq

/-- Outcomes of the random draws consumed inside one iteration of the
version loop of `gen_policies_with_cdc` (one record per CDC version row). -/
structure VersionDraw where
  /-- `random.randint(10, 90)` multiplied by the version index in `_valid_from`. -/
  valid_from_step : ℕ
  /-- `random.randint(10, 90)` added to `_valid_from` for non-current `_valid_to`. -/
  valid_to_step : ℕ
  /-- `random.uniform(0.85, 1.25)`, used only for versions after the first. -/
  premium_factor : ℚ
  /-- `random.uniform(0.9, 1.1)`, used only for versions after the first. -/
  exposure_factor : ℚ
  /-- whether `random.random() < 0.3` fired (status transition to CANCELLED). -/
  cancels : Bool
  /-- `random.randint(30, 300)` offset of the cancellation date from `effective_date`. -/
  cancel_day_offset : ℕ
  /-- `random.choice` over the cancellation reasons. -/
  cancel_reason : CancelReason
  /-- whether `random.random() < 0.02` fired (soft delete of a non-current version). -/
  soft_delete : Bool
  /-- `random.choice([6, 12, 24])`. -/
  term_months : ℕ
  /-- `random.choice([250, 500, 1000, 2500, 5000])`. -/
  deductible : ℚ
  /-- `random.choice` over the policy limits. -/
  policy_limit : ℚ
  /-- `random.randint(1, 20)`. -/
  underwriter_id : ℕ
  /-- `maybe_null(random.randint(1, max(1, i - 1)), 0.7)`. -/
  renewal_of : Option ℕ
  /-- `random.choice(SOURCE_SYSTEMS)`. -/
  source_system : SourceSystem
  deriving DecidableEq

/-- Outcomes of the per-policy random draws of `gen_policies_with_cdc`
(shared by all CDC versions of one `policy_id`). -/
structure PolicyDraw where
  /-- `insured_id` of the insured picked by `random.choice(insureds)`. -/
  insured_id : ℕ
  /-- `agent_id` of the agent picked by `random.choice(agents)`. -/
  agent_id : ℕ
  /-- `random.choice(LOB_CODES)`. -/
  lob : Lob
  /-- `rand_date(2020, 2025)`: the effective date. -/
  eff : Date
  /-- `random.choice([180, 365, 730])`: days until expiration. -/
  term_days : ℕ
  /-- `random.randint(1, 30)`: days the binding date precedes the effective date. -/
  bind_offset : ℕ
  /-- `random.randint(0, 14)`: issue date lag after binding. -/
  issue_offset : ℕ
  /-- `random.randint(0, 5)`: system entry lag after issue. -/
  entry_offset : ℕ
  /-- `random.randint(0, 10)`: booking lag after system entry. -/
  booking_offset : ℕ
  /-- `rand_premium()`. -/
  base_premium : ℚ
  /-- `round(random.uniform(1, 100), 2)`. -/
  base_exposure : ℚ
  /-- `random.choice(POLICY_STATUSES)`. -/
  base_status : PolicyStatus
  /-- whether `random.random() < 0.30` fired (policy gets more than one version). -/
  multi : Bool
  /-- `random.choice([2, 2, 3])`, used only when `multi` fired. -/
  multi_count : ℕ
  /-- the per-version draws, one entry per generated version. -/
  versions : List VersionDraw
  deriving DecidableEq

/-- `num_versions` as computed by the source before the version loop. -/
def PolicyDraw.numVersions (d : PolicyDraw) : ℕ :=
  if d.multi then d.multi_count else 1

/-- One row of `core.policies`; `valid_from` and `valid_to` model the
source columns `_valid_from` and `_valid_to`. -/
structure PolicyRow where
  row_id : ℕ
  policy_id : ℕ
  version_number : ℕ
  insured_id : ℕ
  agent_id : ℕ
  line_of_business : Lob
  effective_date : Date
  expiration_date : Date
  binding_date : Date
  issue_date : Date
  system_entry_date : Date
  booking_date : Date
  policy_status : PolicyStatus
  policy_term_months : ℕ
  total_premium : ℚ
  total_exposure_units : ℚ
  deductible_amount : ℚ
  policy_limit : ℚ
  underwriter_id : ℕ
  cancellation_date : Option Date
  cancellation_reason : Option CancelReason
  renewal_of_policy_id : Option ℕ
  source_system : SourceSystem
  is_current_record : Bool
  is_deleted : Bool
  valid_from : Date
  valid_to : Option Date
  created_at : Date
  updated_at : Date
  deriving DecidableEq

/-- The body of the version loop of `gen_policies_with_cdc`: builds the row
for the zero-based version index `v` of policy `pid` from the shared draws
`d` and the per-version draws `vd`. -/
def mkVersionRow (rowId pid : ℕ) (d : PolicyDraw) (v : ℕ) (vd : VersionDraw) :
    PolicyRow :=
  let binding : Date := d.eff - (d.bind_offset : ℤ)
  let issue : Date := binding + (d.issue_offset : ℤ)
  let system_entry : Date := issue + (d.entry_offset : ℤ)
  let booking : Date := system_entry + (d.booking_offset : ℤ)
  let is_current : Bool := decide (v = d.numVersions - 1)
  let vfrom : Date := system_entry + (v : ℤ) * (vd.valid_from_step : ℤ)
  { row_id := rowId
    policy_id := pid
    version_number := v + 1
    insured_id := d.insured_id
    agent_id := d.agent_id
    line_of_business := d.lob
    effective_date := d.eff
    expiration_date := d.eff + (d.term_days : ℤ)
    binding_date := binding
    issue_date := issue
    system_entry_date := system_entry
    booking_date := booking
    policy_status :=
      if v = 0 then d.base_status
      else if vd.cancels then PolicyStatus.CANCELLED else d.base_status
    policy_term_months := vd.term_months
    total_premium :=
      if v = 0 then d.base_premium
      else round2 (d.base_premium * vd.premium_factor)
    total_exposure_units :=
      if v = 0 then d.base_exposure
      else round2 (d.base_exposure * vd.exposure_factor)
    deductible_amount := vd.deductible
    policy_limit := vd.policy_limit
    underwriter_id := vd.underwriter_id
    cancellation_date :=
      if v = 0 then none
      else if vd.cancels then some (d.eff + (vd.cancel_day_offset : ℤ)) else none
    cancellation_reason :=
      if v = 0 then none
      else if vd.cancels then some vd.cancel_reason else none
    renewal_of_policy_id := vd.renewal_of
    source_system := vd.source_system
    is_current_record := is_current
    is_deleted := !is_current && vd.soft_delete
    valid_from := vfrom
    valid_to :=
      if v = d.numVersions - 1 then none
      else some (vfrom + (vd.valid_to_step : ℤ))
    created_at := system_entry
    updated_at := vfrom }

/-- The version loop of `gen_policies_with_cdc`: `rowId` rows were emitted
before this loop, `v` is the zero-based index of the next version. -/
def genVersionRows (pid : ℕ) (d : PolicyDraw) :
    ℕ → ℕ → List VersionDraw → List PolicyRow
  | _, _, [] => []
  | rowId, v, vd :: rest =>
      mkVersionRow (rowId + 1) pid d v vd ::
        genVersionRows pid d (rowId + 1) (v + 1) rest

/-- The policy loop of `gen_policies_with_cdc`: `i` is the next `policy_id`,
`rowId` the number of rows emitted so far. -/
def gen_policies_aux : ℕ → ℕ → List PolicyDraw → List PolicyRow
  | _, _, [] => []
  | i, rowId, d :: ds =>
      genVersionRows i d rowId 0 d.versions ++
        gen_policies_aux (i + 1) (rowId + d.versions.length) ds

/-- `gen_policies_with_cdc`, given the outcome of every random draw:
policy ids start at 1 and the surrogate `row_id` starts at 0. -/
def gen_policies_with_cdc (draws : List PolicyDraw) : List PolicyRow :=
  gen_policies_aux 1 0 draws

/-- `get_current_policies`: only `is_current_record = True, is_deleted = False` rows. -/
def get_current_policies (policies : List PolicyRow) : List PolicyRow :=
  policies.filter (fun p => p.is_current_record && !p.is_deleted)

/-- Range constraints of the random calls behind one `VersionDraw`. -/
def VersionDraw.Valid (vd : VersionDraw) : Prop :=
  10 ≤ vd.valid_from_step ∧ vd.valid_from_step ≤ 90 ∧
  10 ≤ vd.valid_to_step ∧ vd.valid_to_step ≤ 90 ∧
  (17 / 20 : ℚ) ≤ vd.premium_factor ∧ vd.premium_factor ≤ (5 / 4 : ℚ) ∧
  (9 / 10 : ℚ) ≤ vd.exposure_factor ∧ vd.exposure_factor ≤ (11 / 10 : ℚ) ∧
  30 ≤ vd.cancel_day_offset ∧ vd.cancel_day_offset ≤ 300

instance (vd : VersionDraw) : Decidable vd.Valid := by
  unfold VersionDraw.Valid; infer_instance

/-- Range constraints of the random calls behind one `PolicyDraw`, including
that the list of per-version draws has exactly `num_versions` entries. -/
def PolicyDraw.Valid (d : PolicyDraw) : Prop :=
  (d.term_days = 180 ∨ d.term_days = 365 ∨ d.term_days = 730) ∧
  1 ≤ d.bind_offset ∧ d.bind_offset ≤ 30 ∧
  d.issue_offset ≤ 14 ∧ d.entry_offset ≤ 5 ∧ d.booking_offset ≤ 10 ∧
  (200 : ℚ) ≤ d.base_premium ∧ d.base_premium ≤ 25000 ∧
  (1 : ℚ) ≤ d.base_exposure ∧ d.base_exposure ≤ 100 ∧
  (d.multi_count = 2 ∨ d.multi_count = 3) ∧
  d.versions.length = d.numVersions ∧
  ∀ vd ∈ d.versions, vd.Valid

instance (d : PolicyDraw) : Decidable d.Valid := by
  unfold PolicyDraw.Valid; infer_instance

/-! Basic shape lemmas about the policy generator. -/

theorem mkVersionRow_policy_id (rid pid : ℕ) (d : PolicyDraw) (v : ℕ)
    (vd : VersionDraw) : (mkVersionRow rid pid d v vd).policy_id = pid := rfl

theorem mkVersionRow_version_number (rid pid : ℕ) (d : PolicyDraw) (v : ℕ)
    (vd : VersionDraw) : (mkVersionRow rid pid d v vd).version_number = v + 1 := rfl

theorem mkVersionRow_is_current (rid pid : ℕ) (d : PolicyDraw) (v : ℕ)
    (vd : VersionDraw) :
    (mkVersionRow rid pid d v vd).is_current_record =
      decide (v = d.numVersions - 1) := rfl

theorem mkVersionRow_is_deleted (rid pid : ℕ) (d : PolicyDraw) (v : ℕ)
    (vd : VersionDraw) :
    (mkVersionRow rid pid d v vd).is_deleted =
      (!decide (v = d.numVersions - 1) && vd.soft_delete) := rfl

theorem mkVersionRow_valid_from (rid pid : ℕ) (d : PolicyDraw) (v : ℕ)
    (vd : VersionDraw) :
    (mkVersionRow rid pid d v vd).valid_from =
      d.eff - (d.bind_offset : ℤ) + (d.issue_offset : ℤ) +
        (d.entry_offset : ℤ) + (v : ℤ) * (vd.valid_from_step : ℤ) := rfl

theorem mem_genVersionRows {pid : ℕ} {d : PolicyDraw} {r : PolicyRow} :
    ∀ {rowId v : ℕ} {vds : List VersionDraw},
      r ∈ genVersionRows pid d rowId v vds →
        ∃ rid j vd, vd ∈ vds ∧ r = mkVersionRow rid pid d (v + j) vd := by
  intro rowId v vds
  induction vds generalizing rowId v with
  | nil => intro h; simp [genVersionRows] at h
  | cons vd vds ih =>
    intro h
    rw [genVersionRows] at h
    rcases List.mem_cons.mp h with h1 | h2
    · exact ⟨rowId + 1, 0, vd, List.mem_cons_self _ _, by simpa using h1⟩
    · obtain ⟨rid, j, vd2, hm, he⟩ := ih h2
      exact ⟨rid, j + 1, vd2, List.mem_cons_of_mem _ hm, by
        rw [he]; congr 1; omega⟩

theorem mem_gen_policies_aux {r : PolicyRow} :
    ∀ {i rowId : ℕ} {ds : List PolicyDraw}, r ∈ gen_policies_aux i rowId ds →
      ∃ p, i ≤ p ∧ p < i + ds.length ∧ ∃ d ∈ ds, ∃ rid j vd, vd ∈ d.versions ∧
        r = mkVersionRow rid p d j vd := by
  intro i rowId ds
  induction ds generalizing i rowId with
  | nil => intro h; simp [gen_policies_aux] at h
  | cons d ds ih =>
    intro h
    rw [gen_policies_aux] at h
    rcases List.mem_append.mp h with h1 | h2
    · obtain ⟨rid, j, vd, hm, he⟩ := mem_genVersionRows h1
      exact ⟨i, le_refl i, by simp, d, List.mem_cons_self _ _, rid, 0 + j, vd,
        hm, he⟩
    · obtain ⟨p, hp1, hp2, d2, hd2, rest⟩ := ih h2
      exact ⟨p, by omega, by simp; omega, d2, List.mem_cons_of_mem _ hd2, rest⟩

theorem genVersionRows_filter_self (pid : ℕ) (d : PolicyDraw) (rowId v : ℕ)
    (vds : List VersionDraw) :
    (genVersionRows pid d rowId v vds).filter (fun r => r.policy_id == pid) =
      genVersionRows pid d rowId v vds := by
  apply List.filter_eq_self.mpr
  intro r hr
  obtain ⟨rid, j, vd, _, he⟩ := mem_genVersionRows hr
  simp [he, mkVersionRow_policy_id]

theorem gen_policies_aux_filter (pid : ℕ) :
    ∀ (i rowId : ℕ) (ds : List PolicyDraw), i ≤ pid → pid < i + ds.length →
      ∃ d ∈ ds, ∃ r0, (gen_policies_aux i rowId ds).filter
          (fun r => r.policy_id == pid) = genVersionRows pid d r0 0 d.versions := by
  intro i rowId ds
  induction ds generalizing i rowId with
  | nil => intro h1 h2; simp at h2; omega
  | cons d ds ih =>
    intro h1 h2
    rw [gen_policies_aux, List.filter_append]
    by_cases hp : pid = i
    · subst hp
      refine ⟨d, List.mem_cons_self _ _, rowId, ?_⟩
      rw [genVersionRows_filter_self]
      have hnil : (gen_policies_aux (pid + 1) (rowId + d.versions.length)
          ds).filter (fun r => r.policy_id == pid) = [] := by
        apply List.filter_eq_nil_iff.mpr
        intro r hr
        obtain ⟨p, hp1, hp2, d2, hd2, rid, j, vd2, hvd, he⟩ :=
          mem_gen_policies_aux hr
        have : r.policy_id = p := by simp [he, mkVersionRow_policy_id]
        simp [this]; omega
      rw [hnil, List.append_nil]
    · have hnil : (genVersionRows i d rowId 0 d.versions).filter
          (fun r => r.policy_id == pid) = [] := by
        apply List.filter_eq_nil_iff.mpr
        intro r hr
        obtain ⟨_, _, _, _, he⟩ := mem_genVersionRows hr
        simp [he, mkVersionRow_policy_id]
        omega
      rw [hnil, List.nil_append]
      obtain ⟨d2, hd2, r0, he⟩ := ih (i + 1) (rowId + d.versions.length)
        (by omega) (by simp at h2 ⊢; omega)
      exact ⟨d2, List.mem_cons_of_mem _ hd2, r0, he⟩

/-- One pass over the version loop: among the rows for version indices
`v, v+1, …` with `v + vds.length = num_versions`, exactly one row is current
(when any row exists at all), that row is not soft-deleted, and every
version number is at most `num_versions`, attained exactly on the current row. -/
theorem genVersionRows_current_count (pid : ℕ) (d : PolicyDraw) :
    ∀ (rowId v : ℕ) (vds : List VersionDraw), v + vds.length = d.numVersions →
      ((genVersionRows pid d rowId v vds).countP
          (fun r => r.is_current_record) = if vds.isEmpty then 0 else 1) ∧
      ((genVersionRows pid d rowId v vds).countP
          (fun r => r.is_current_record && !r.is_deleted) =
            if vds.isEmpty then 0 else 1) ∧
      (∀ r ∈ genVersionRows pid d rowId v vds,
        r.version_number ≤ d.numVersions ∧
          (r.is_current_record = true → r.version_number = d.numVersions)) := by
  intro rowId v vds
  induction vds generalizing rowId v with
  | nil => intro h; simp [genVersionRows]
  | cons vd vds ih =>
    intro h
    rcases List.eq_nil_or_concat vds with hnil | hne
    · subst hnil
      simp only [List.length_cons, List.length_nil] at h
      have hv : v = d.numVersions - 1 := by omega
      have hcur : (mkVersionRow (rowId + 1) pid d v vd).is_current_record
          = true := by
        rw [mkVersionRow_is_current]; exact decide_eq_true hv
      have hdel : (mkVersionRow (rowId + 1) pid d v vd).is_deleted = false := by
        rw [mkVersionRow_is_deleted, decide_eq_true hv]; simp
      constructor
      · simp [genVersionRows, List.countP_cons, hcur]
      constructor
      · simp [genVersionRows, List.countP_cons, hcur, hdel]
      · intro r hr
        rw [genVersionRows] at hr
        simp only [genVersionRows, List.mem_singleton] at hr
        subst hr
        rw [mkVersionRow_version_number]
        constructor
        · omega
        · intro _; omega
    · have hlen : vds.length ≥ 1 := by
        obtain ⟨l, a, rfl⟩ := hne; simp
      have hvne : v ≠ d.numVersions - 1 := by
        simp only [List.length_cons] at h; omega
      have hcur : (mkVersionRow (rowId + 1) pid d v vd).is_current_record
          = false := by
        rw [mkVersionRow_is_current]; simp [hvne]
      have hrec := ih (rowId + 1) (v + 1) (by simp only [List.length_cons] at h; omega)
      have hvdsne : vds.isEmpty = false := by
        obtain ⟨l, a, rfl⟩ := hne; simp
      rw [hvdsne] at hrec
      constructor
      · rw [genVersionRows, List.countP_cons]
        simp only [hcur, if_neg]
        simp only [Bool.false_eq_true, if_false, add_zero]
        rw [hrec.1]
        simp
      constructor
      · rw [genVersionRows, List.countP_cons]
        simp only [hcur, Bool.false_and]
        simp only [Bool.false_eq_true, if_false, add_zero]
        rw [hrec.2.1]
        simp
      · intro r hr
        rw [genVersionRows] at hr
        rcases List.mem_cons.mp hr with h1 | h2
        · subst h1
          rw [mkVersionRow_version_number, mkVersionRow_is_current]
          simp only [List.length_cons] at h
          constructor
          · omega
          · intro hc; exact absurd (of_decide_eq_true hc) hvne
        · exact hrec.2.2 r h2

theorem numVersions_pos {d : PolicyDraw} (hd : d.Valid) : 1 ≤ d.numVersions := by
  obtain ⟨_, _, _, _, _, _, _, _, _, _, hmc, _, _⟩ := hd
  unfold PolicyDraw.numVersions
  rcases hmc with h | h <;> split <;> omega

theorem versions_ne_nil {d : PolicyDraw} (hd : d.Valid) : d.versions ≠ [] := by
  have h1 := numVersions_pos hd
  obtain ⟨_, _, _, _, _, _, _, _, _, _, _, hlen, _⟩ := hd
  intro hc
  rw [hc] at hlen
  simp at hlen
  omega

/-- The rows of one `policy_id` inside the full generated CDC stream are
exactly one run of the version loop over one valid draw of the input. -/
theorem policy_rows_of_filter {draws : List PolicyDraw}
    (hv : ∀ d ∈ draws, d.Valid) {pid : ℕ}
    (hne : (gen_policies_with_cdc draws).filter
      (fun r => r.policy_id == pid) ≠ []) :
    ∃ d ∈ draws, ∃ r0, d.Valid ∧
      (gen_policies_with_cdc draws).filter (fun r => r.policy_id == pid) =
        genVersionRows pid d r0 0 d.versions := by
  obtain ⟨r, hr⟩ := List.exists_mem_of_ne_nil _ hne
  have hrg := List.mem_filter.mp hr
  have hpid : r.policy_id = pid := by simpa using hrg.2
  obtain ⟨p, hp1, hp2, d2, hd2, rid, j, vd, hvd, he⟩ :=
    mem_gen_policies_aux hrg.1
  have hpp : r.policy_id = p := by simp [he, mkVersionRow_policy_id]
  obtain ⟨d, hd, r0, hfe⟩ := gen_policies_aux_filter pid 1 0 draws
    (by omega) (by omega)
  exact ⟨d, hd, r0, hv d hd, hfe⟩

theorem filter_comm_count (L : List PolicyRow) (p q : PolicyRow → Bool) :
    ((L.filter p).filter q).length = (L.filter q).countP p := by
  induction L with
  | nil => simp
  | cons r L ih =>
    by_cases hp : p r <;> by_cases hq : q r <;>
      simp only [List.filter_cons, hp, hq, if_true, if_false,
        Bool.false_eq_true, List.length_cons, List.countP_cons, ih] <;>
      try omega

/-- C1: for every generated `policy_id`, exactly one policy-version row has
`is_current_record = true`, and that row's `version_number` is the maximum
`version_number` among that policy's rows. -/
theorem policy_cdc_current_is_unique_max (draws : List PolicyDraw)
    (hv : ∀ d ∈ draws, d.Valid) (pid : ℕ)
    (hne : (gen_policies_with_cdc draws).filter
      (fun r => r.policy_id == pid) ≠ []) :
    ((gen_policies_with_cdc draws).filter (fun r => r.policy_id == pid)).countP
        (fun r => r.is_current_record) = 1 ∧
      ∃ rc ∈ (gen_policies_with_cdc draws).filter (fun r => r.policy_id == pid),
        rc.is_current_record = true ∧
          ∀ r ∈ (gen_policies_with_cdc draws).filter
              (fun r => r.policy_id == pid),
            r.version_number ≤ rc.version_number := by
  obtain ⟨d, hd, r0, hdv, hfe⟩ := policy_rows_of_filter hv hne
  obtain ⟨-, -, -, -, -, -, -, -, -, -, -, hlen, -⟩ := hdv
  have hcount := genVersionRows_current_count pid d r0 0 d.versions
    (by omega)
  have hne2 : d.versions ≠ [] := by
    rw [hfe] at hne
    intro hc
    rw [hc] at hne
    exact hne rfl
  have hEmp : d.versions.isEmpty = false := by
    simpa [List.isEmpty_iff] using hne2
  rw [hfe]
  constructor
  · rw [hcount.1, hEmp]; simp
  · have hpos : 0 < (genVersionRows pid d r0 0 d.versions).countP
        (fun r => r.is_current_record) := by
      rw [hcount.1, hEmp]; simp
    obtain ⟨rc, hrc, hrcc⟩ := List.countP_pos_iff.mp hpos
    refine ⟨rc, hrc, hrcc, ?_⟩
    intro r hrm
    have h1 := (hcount.2.2 r hrm).1
    have h2 := (hcount.2.2 rc hrc).2 hrcc
    omega

/-- A single-version valid draw used to instantiate the theorems on a
concrete input. -/
def wVersionDraw (step : ℕ) : VersionDraw :=
  { valid_from_step := step, valid_to_step := 10, premium_factor := 1,
    exposure_factor := 1, cancels := false, cancel_day_offset := 30,
    cancel_reason := CancelReason.NON_PAY, soft_delete := false,
    term_months := 12, deductible := 500, policy_limit := 100000,
    underwriter_id := 1, renewal_of := none,
    source_system := SourceSystem.MANUAL_ENTRY }

/-- A valid one-version policy draw (the common 70% case of the source). -/
def wPolicyDraw : PolicyDraw :=
  { insured_id := 1, agent_id := 1, lob := Lob.HO, eff := 0, term_days := 365,
    bind_offset := 1, issue_offset := 0, entry_offset := 0, booking_offset := 0,
    base_premium := 1000, base_exposure := 10,
    base_status := PolicyStatus.ACTIVE, multi := false, multi_count := 2,
    versions := [wVersionDraw 10] }

theorem wVersionDraw_valid (s : ℕ) (h1 : 10 ≤ s) (h2 : s ≤ 90) :
    (wVersionDraw s).Valid := by
  refine ⟨h1, h2, ?_⟩
  norm_num [wVersionDraw]

theorem wPolicyDraw_valid : ∀ d ∈ [wPolicyDraw], d.Valid := by
  intro d hd
  rw [List.mem_singleton] at hd
  subst hd
  refine ⟨by norm_num [wPolicyDraw], ?_⟩
  refine ⟨by norm_num [wPolicyDraw], by norm_num [wPolicyDraw], ?_⟩
  norm_num [wPolicyDraw, PolicyDraw.numVersions]
  exact wVersionDraw_valid 10 (by norm_num) (by norm_num)

theorem gen_single (d : PolicyDraw) :
    gen_policies_with_cdc [d] = genVersionRows 1 d 0 0 d.versions := by
  simp [gen_policies_with_cdc, gen_policies_aux]

theorem wPolicyDraw_filter_ne_nil :
    (gen_policies_with_cdc [wPolicyDraw]).filter
      (fun r => r.policy_id == 1) ≠ [] := by
  rw [gen_single]
  simp [wPolicyDraw, genVersionRows, mkVersionRow_policy_id]

theorem policy_cdc_current_is_unique_max_witness :
    ((gen_policies_with_cdc [wPolicyDraw]).filter
        (fun r => r.policy_id == 1)).countP (fun r => r.is_current_record) = 1 ∧
      ∃ rc ∈ (gen_policies_with_cdc [wPolicyDraw]).filter
          (fun r => r.policy_id == 1),
        rc.is_current_record = true ∧
          ∀ r ∈ (gen_policies_with_cdc [wPolicyDraw]).filter
              (fun r => r.policy_id == 1),
            r.version_number ≤ rc.version_number :=
  policy_cdc_current_is_unique_max [wPolicyDraw] wPolicyDraw_valid 1
    wPolicyDraw_filter_ne_nil

/-- C10: every generated `policy_id` keeps exactly one row with
`is_current_record = true` and `is_deleted = false`: soft deletion is only
ever applied to non-current versions, and `get_current_policies` returns
exactly one row per `policy_id`. -/
theorem policy_current_state_exists (draws : List PolicyDraw)
    (hv : ∀ d ∈ draws, d.Valid) (pid : ℕ)
    (hne : (gen_policies_with_cdc draws).filter
      (fun r => r.policy_id == pid) ≠ []) :
    ((gen_policies_with_cdc draws).filter (fun r => r.policy_id == pid)).countP
        (fun r => r.is_current_record && !r.is_deleted) = 1 ∧
      (∀ r ∈ gen_policies_with_cdc draws,
        r.is_deleted = true → r.is_current_record = false) ∧
      ((get_current_policies (gen_policies_with_cdc draws)).filter
          (fun r => r.policy_id == pid)).length = 1 := by
  have hmain : ((gen_policies_with_cdc draws).filter
      (fun r => r.policy_id == pid)).countP
        (fun r => r.is_current_record && !r.is_deleted) = 1 := by
    obtain ⟨d, hd, r0, hdv, hfe⟩ := policy_rows_of_filter hv hne
    obtain ⟨-, -, -, -, -, -, -, -, -, -, -, hlen, -⟩ := hdv
    have hcount := genVersionRows_current_count pid d r0 0 d.versions
      (by omega)
    have hne2 : d.versions ≠ [] := by
      rw [hfe] at hne
      intro hc
      rw [hc] at hne
      exact hne rfl
    have hEmp : d.versions.isEmpty = false := by
      simpa [List.isEmpty_iff] using hne2
    rw [hfe, hcount.2.1, hEmp]
    simp
  refine ⟨hmain, ?_, ?_⟩
  · intro r hr hdel
    obtain ⟨p, _, _, d, _, rid, j, vd, _, he⟩ := mem_gen_policies_aux hr
    subst he
    rw [mkVersionRow_is_deleted] at hdel
    rw [mkVersionRow_is_current]
    rcases Bool.and_eq_true_iff.mp hdel with ⟨h1, -⟩
    simpa using h1
  · rw [get_current_policies, filter_comm_count]
    exact hmain

theorem policy_current_state_exists_witness :
    ((gen_policies_with_cdc [wPolicyDraw]).filter
        (fun r => r.policy_id == 1)).countP
        (fun r => r.is_current_record && !r.is_deleted) = 1 ∧
      (∀ r ∈ gen_policies_with_cdc [wPolicyDraw],
        r.is_deleted = true → r.is_current_record = false) ∧
      ((get_current_policies (gen_policies_with_cdc [wPolicyDraw])).filter
          (fun r => r.policy_id == 1)).length = 1 :=
  policy_current_state_exists [wPolicyDraw] wPolicyDraw_valid 1
    wPolicyDraw_filter_ne_nil

/-- C8: every policy-version row satisfies
`binding_date ≤ issue_date ≤ system_entry_date ≤ booking_date`. -/
theorem policy_dates_monotone (draws : List PolicyDraw) (r : PolicyRow)
    (hr : r ∈ gen_policies_with_cdc draws) :
    r.binding_date ≤ r.issue_date ∧ r.issue_date ≤ r.system_entry_date ∧
      r.system_entry_date ≤ r.booking_date := by
  obtain ⟨p, -, -, d, -, rid, j, vd, -, he⟩ := mem_gen_policies_aux hr
  subst he
  refine ⟨?_, ?_, ?_⟩ <;> simp [mkVersionRow]

theorem policy_dates_monotone_witness :
    (mkVersionRow 1 1 wPolicyDraw 0 (wVersionDraw 10)).binding_date ≤
        (mkVersionRow 1 1 wPolicyDraw 0 (wVersionDraw 10)).issue_date ∧
      (mkVersionRow 1 1 wPolicyDraw 0 (wVersionDraw 10)).issue_date ≤
        (mkVersionRow 1 1 wPolicyDraw 0 (wVersionDraw 10)).system_entry_date ∧
      (mkVersionRow 1 1 wPolicyDraw 0 (wVersionDraw 10)).system_entry_date ≤
        (mkVersionRow 1 1 wPolicyDraw 0 (wVersionDraw 10)).booking_date :=
  policy_dates_monotone [wPolicyDraw] _ (by
    rw [gen_single]
    simp [wPolicyDraw, genVersionRows])

/-- A valid three-version draw whose second version draws the `_valid_from`
step 90 and whose third version draws the step 10. -/
def cexPolicyDraw3 : PolicyDraw :=
  { insured_id := 1, agent_id := 1, lob := Lob.HO, eff := 0, term_days := 365,
    bind_offset := 1, issue_offset := 0, entry_offset := 0, booking_offset := 0,
    base_premium := 1000, base_exposure := 10,
    base_status := PolicyStatus.ACTIVE, multi := true, multi_count := 3,
    versions := [wVersionDraw 10, wVersionDraw 90, wVersionDraw 10] }

/-- C2: evaluation of the generator at the failing input. The source
computes `_valid_from` of the zero-based version `v` as
`system_entry_date + v * randint(10, 90)` with a fresh step drawn for every
version, so a three-version policy that draws step 90 for its second version
and step 10 for its third gets `_valid_from` values `(-1, 89, 19)`:
`_valid_from` of version 3 lies before `_valid_from` of version 2, violating
strict monotonicity in `version_number`. -/
theorem valid_from_not_monotone_at_failing_input :
    cexPolicyDraw3.Valid ∧
      (gen_policies_with_cdc [cexPolicyDraw3]).map
          (fun r => (r.version_number, r.valid_from)) =
        [(1, -1), (2, 89), (3, 19)] ∧
      ∃ r ∈ gen_policies_with_cdc [cexPolicyDraw3],
        ∃ r2 ∈ gen_policies_with_cdc [cexPolicyDraw3],
          r.policy_id = r2.policy_id ∧ r.version_number < r2.version_number ∧
            r2.valid_from < r.valid_from := by
  have hval : cexPolicyDraw3.Valid := by
    refine ⟨by norm_num [cexPolicyDraw3], ?_⟩
    refine ⟨by norm_num [cexPolicyDraw3], by norm_num [cexPolicyDraw3], ?_⟩
    norm_num [cexPolicyDraw3, PolicyDraw.numVersions]
    refine ⟨wVersionDraw_valid 10 (by norm_num) (by norm_num),
      wVersionDraw_valid 90 (by norm_num) (by norm_num),
      wVersionDraw_valid 10 (by norm_num) (by norm_num)⟩
  have hgen : gen_policies_with_cdc [cexPolicyDraw3] =
      [mkVersionRow 1 1 cexPolicyDraw3 0 (wVersionDraw 10),
        mkVersionRow 2 1 cexPolicyDraw3 1 (wVersionDraw 90),
        mkVersionRow 3 1 cexPolicyDraw3 2 (wVersionDraw 10)] := by
    rw [gen_single]
    simp [cexPolicyDraw3, genVersionRows]
  refine ⟨hval, ?_, ?_⟩
  · rw [hgen]
    simp [mkVersionRow_version_number, mkVersionRow_valid_from, cexPolicyDraw3,
      wVersionDraw]
  · refine ⟨mkVersionRow 2 1 cexPolicyDraw3 1 (wVersionDraw 90),
      by rw [hgen]; simp,
      mkVersionRow 3 1 cexPolicyDraw3 2 (wVersionDraw 10),
      by rw [hgen]; simp, ?_, ?_, ?_⟩
    · rw [mkVersionRow_policy_id, mkVersionRow_policy_id]
    · rw [mkVersionRow_version_number, mkVersionRow_version_number]
      omega
    · rw [mkVersionRow_valid_from, mkVersionRow_valid_from]
      norm_num [cexPolicyDraw3, wVersionDraw]

/-! Claims and claim transactions. -/

/-- `CLAIM_STATUSES` from the source. -/
inductive ClaimStatus where
  | OPEN | CLOSED | REOPENED | SUBROGATION | LITIGATION
  deriving DecidableEq, Inhabited

/-- `CLAIM_CAUSES` from the source. -/
inductive ClaimCause where
  | FIRE | WATER | THEFT | COLLISION | WEATHER | SLIP_FALL | VANDALISM
  | MALPRACTICE | PRODUCT_DEFECT | OTHER
  deriving DecidableEq, Inhabited

/-- Outcomes of the random draws consumed for one claim in `gen_claims`. -/
structure ClaimDraw where
  /-- index of the policy picked by `random.choice(current)`. -/
  policy_idx : ℕ
  /-- `rand_date(2020, 2025)`. -/
  loss_date : Date
  /-- `random.randint(0, 60)`: report lag after the loss. -/
  report_offset : ℕ
  /-- `random.randint(0, 30)`: entry lag after the report. -/
  entry_offset : ℕ
  /-- `random.randint(0, 7)`: batch-processing lag after entry. -/
  processing_offset : ℕ
  /-- whether `random.random() < 0.6` fired (claim closed). -/
  closes : Bool
  /-- `random.randint(30, 730)`: close lag after the report date. -/
  close_offset : ℕ
  /-- whether `random.random() < 0.08` fired (closed claim reopened). -/
  reopens : Bool
  /-- `random.randint(30, 365)`: reopen lag after the close date. -/
  reopen_offset : ℕ
  /-- `random.choice(CLAIM_STATUSES)` before the closed/reopened overrides. -/
  base_status : ClaimStatus
  /-- `random.choice(CLAIM_CAUSES)`. -/
  cause : ClaimCause
  /-- `round(random.uniform(500, 200000), 2)`. -/
  reserve : ℚ
  /-- `round(random.uniform(0, 150000), 2)`. -/
  paid_loss : ℚ
  /-- `round(random.uniform(0, 30000), 2)`. -/
  paid_alae : ℚ
  /-- `round(random.uniform(0, 10000), 2)`. -/
  paid_ulae : ℚ
  /-- `round(random.uniform(0, 5000), 2)`. -/
  salvage : ℚ
  /-- `round(random.uniform(0, 10000), 2)`. -/
  subro : ℚ
  /-- whether `random.random() < 0.1` fired. -/
  litigation : Bool
  /-- whether `random.random() < 0.03` fired. -/
  fraud : Bool
  /-- whether `random.random() < 0.01` fired (soft delete). -/
  deleted : Bool
  /-- `random.choice(SOURCE_SYSTEMS)`. -/
  source_system : SourceSystem
  deriving DecidableEq

/-- One row of `core.claims` (free-text and cosmetic columns omitted). -/
structure ClaimRow where
  claim_id : ℕ
  policy_id : ℕ
  insured_id : ℕ
  line_of_business : Lob
  loss_date : Date
  report_date : Date
  entry_date : Date
  processing_date : Date
  claim_status : ClaimStatus
  cause_of_loss : ClaimCause
  reserve_amount : ℚ
  paid_loss_amount : ℚ
  paid_alae_amount : ℚ
  paid_ulae_amount : ℚ
  salvage_amount : ℚ
  subrogation_amount : ℚ
  total_incurred : ℚ
  litigation_flag : Bool
  fraud_indicator : Bool
  close_date : Option Date
  reopen_date : Option Date
  source_system : SourceSystem
  is_deleted : Bool
  created_at : Date
  updated_at : Date
  deriving DecidableEq

instance : Inhabited PolicyRow :=
  ⟨{ row_id := 0, policy_id := 0, version_number := 0, insured_id := 0,
     agent_id := 0, line_of_business := Lob.HO, effective_date := 0,
     expiration_date := 0, binding_date := 0, issue_date := 0,
     system_entry_date := 0, booking_date := 0,
     policy_status := PolicyStatus.ACTIVE, policy_term_months := 0,
     total_premium := 0, total_exposure_units := 0, deductible_amount := 0,
     policy_limit := 0, underwriter_id := 0, cancellation_date := none,
     cancellation_reason := none, renewal_of_policy_id := none,
     source_system := SourceSystem.MANUAL_ENTRY, is_current_record := false,
     is_deleted := false, valid_from := 0, valid_to := none, created_at := 0,
     updated_at := 0 }⟩

/-- The body of `gen_claims` for claim `i`, given the policy picked by
`random.choice(current)` and the per-claim draws. -/
def mkClaim (i : ℕ) (pol : PolicyRow) (cd : ClaimDraw) : ClaimRow :=
  let report := cd.loss_date + (cd.report_offset : ℤ)
  let entry := report + (cd.entry_offset : ℤ)
  let processing := entry + (cd.processing_offset : ℤ)
  let close_date : Option Date :=
    if cd.closes then some (report + (cd.close_offset : ℤ)) else none
  let is_reopened := cd.closes && cd.reopens
  { claim_id := i
    policy_id := pol.policy_id
    insured_id := pol.insured_id
    line_of_business := pol.line_of_business
    loss_date := cd.loss_date
    report_date := report
    entry_date := entry
    processing_date := processing
    claim_status :=
      if is_reopened then ClaimStatus.REOPENED
      else if cd.closes && !(cd.base_status == ClaimStatus.CLOSED) then
        ClaimStatus.CLOSED
      else cd.base_status
    cause_of_loss := cd.cause
    reserve_amount := cd.reserve
    paid_loss_amount := cd.paid_loss
    paid_alae_amount := cd.paid_alae
    paid_ulae_amount := cd.paid_ulae
    salvage_amount := cd.salvage
    subrogation_amount := cd.subro
    total_incurred := round2
      (cd.reserve + cd.paid_loss + cd.paid_alae - cd.salvage - cd.subro)
    litigation_flag := cd.litigation
    fraud_indicator := cd.fraud
    close_date := close_date
    reopen_date :=
      if is_reopened then
        some (report + (cd.close_offset : ℤ) + (cd.reopen_offset : ℤ))
      else none
    source_system := cd.source_system
    is_deleted := cd.deleted
    created_at := entry
    updated_at := processing }

def gen_claims_aux (current : List PolicyRow) : ℕ → List ClaimDraw → List ClaimRow
  | _, [] => []
  | i, cd :: rest =>
      mkClaim i (current.getD cd.policy_idx default) cd ::
        gen_claims_aux current (i + 1) rest

/-- `gen_claims`, given the outcome of every random draw: one `ClaimDraw`
per generated claim, claim ids starting at 1. -/
def gen_claims (policies : List PolicyRow) (draws : List ClaimDraw) :
    List ClaimRow :=
  gen_claims_aux (get_current_policies policies) 1 draws

/-- `get_active_claims`: rows with `is_deleted = False`. -/
def get_active_claims (claims : List ClaimRow) : List ClaimRow :=
  claims.filter (fun c => !c.is_deleted)

/-- Claim-transaction types; `random.choice` in the source only ever picks
from the five non-VOID constructors. -/
inductive CTType where
  | RESERVE_SET | RESERVE_CHANGE | PAYMENT | RECOVERY | EXPENSE | VOID
  deriving DecidableEq, Inhabited

/-- Claim-transaction categories. -/
inductive CTCategory where
  | LOSS | ALAE | ULAE | SALVAGE | SUBRO
  deriving DecidableEq, Inhabited

/-- Outcomes of the random draws for one iteration of the inner loop of
`gen_claim_transactions` (one base transaction plus its potential void). -/
structure ClaimTxnDraw where
  /-- `random.choice` over the five non-VOID transaction types. -/
  txn_type : CTType
  /-- `rand_date(2020, 2025)`. -/
  txn_date : Date
  /-- `random.randint(0, 5)`: posting lag. -/
  post_offset : ℕ
  /-- `random.randint(0, 10)`: check lag after posting (payments only). -/
  check_offset : ℕ
  /-- `round(random.uniform(-5000, 50000), 2)`. -/
  amount : ℚ
  /-- `random.choice` over the categories. -/
  category : CTCategory
  /-- whether `random.random() < 0.05` fired (payment voided). -/
  voided : Bool
  /-- `random.randint(1, 30)`: void transaction-date lag. -/
  void_delay : ℕ
  /-- `random.randint(0, 5)`: void posting lag. -/
  void_post_offset : ℕ
  deriving DecidableEq

/-- One row of `core.claim_transactions` (free-text columns omitted). -/
structure ClaimTxn where
  transaction_id : ℕ
  claim_id : ℕ
  transaction_type : CTType
  transaction_date : Date
  posting_date : Date
  check_date : Option Date
  amount : ℚ
  category : CTCategory
  is_void : Bool
  void_of_transaction_id : Option ℕ
  created_at : Date
  deriving DecidableEq

/-- The base transaction appended by the inner loop. -/
def mkClaimTxn (txnId : ℕ) (c : ClaimRow) (dr : ClaimTxnDraw) : ClaimTxn :=
  let posting := dr.txn_date + (dr.post_offset : ℤ)
  { transaction_id := txnId
    claim_id := c.claim_id
    transaction_type := dr.txn_type
    transaction_date := dr.txn_date
    posting_date := posting
    check_date :=
      if dr.txn_type = CTType.PAYMENT then some (posting + (dr.check_offset : ℤ))
      else none
    amount := dr.amount
    category := dr.category
    is_void := false
    void_of_transaction_id := none
    created_at := dr.txn_date }

/-- The VOID transaction paired with a voided payment; its reference is
`txn_id - 1`, the id of the payment just emitted. -/
def mkVoidTxn (txnId : ℕ) (c : ClaimRow) (dr : ClaimTxnDraw) : ClaimTxn :=
  let vdate := dr.txn_date + (dr.void_delay : ℤ)
  let vposting := vdate + (dr.void_post_offset : ℤ)
  { transaction_id := txnId
    claim_id := c.claim_id
    transaction_type := CTType.VOID
    transaction_date := vdate
    posting_date := vposting
    check_date := none
    amount := -dr.amount
    category := dr.category
    is_void := true
    void_of_transaction_id := some (txnId - 1)
    created_at := vdate }

/-- The inner loop of `gen_claim_transactions` over one claim's draws.
Returns the emitted transactions, the next transaction id, and whether the
global row cap was hit (which aborts the whole generation, the source's
early `return`). -/
def gen_ct_inner (cap : ℕ) (c : ClaimRow) :
    ℕ → List ClaimTxnDraw → List ClaimTxn × ℕ × Bool
  | txnId, [] => ([], txnId, false)
  | txnId, dr :: rest =>
      if cap < txnId then ([], txnId, true)
      else
        let t := mkClaimTxn txnId c dr
        if dr.txn_type = CTType.PAYMENT ∧ dr.voided = true then
          if cap < txnId + 1 then ([t], txnId + 1, true)
          else
            let res := gen_ct_inner cap c (txnId + 2) rest
            (t :: mkVoidTxn (txnId + 1) c dr :: res.1, res.2.1, res.2.2)
        else
          let res := gen_ct_inner cap c (txnId + 1) rest
          (t :: res.1, res.2.1, res.2.2)

/-- The outer loop of `gen_claim_transactions` over the active claims. -/
def gen_ct_outer (cap : ℕ) : ℕ → List (ClaimRow × List ClaimTxnDraw) → List ClaimTxn
  | _, [] => []
  | txnId, (c, drs) :: rest =>
      let res := gen_ct_inner cap c txnId drs
      if res.2.2 then res.1 else res.1 ++ gen_ct_outer cap res.2.1 rest

def NUM_CLAIM_TRANSACTIONS : ℕ := 15000

/-- `gen_claim_transactions`, given one draw list per active claim. -/
def gen_claim_transactions (claims : List ClaimRow)
    (draws : List (List ClaimTxnDraw)) : List ClaimTxn :=
  gen_ct_outer NUM_CLAIM_TRANSACTIONS 1 ((get_active_claims claims).zip draws)

/-- Range constraints of the random calls behind one `ClaimTxnDraw`; in
particular `random.choice` never yields VOID for the base type. -/
def ClaimTxnDraw.Valid (dr : ClaimTxnDraw) : Prop :=
  dr.txn_type ≠ CTType.VOID ∧ dr.post_offset ≤ 5 ∧ dr.check_offset ≤ 10 ∧
    1 ≤ dr.void_delay ∧ dr.void_delay ≤ 30 ∧ dr.void_post_offset ≤ 5 ∧
    (-5000 : ℚ) ≤ dr.amount ∧ dr.amount ≤ 50000

/-- The VOID transaction `t` is matched inside `L` by the payment it voids:
the reference resolves, the amounts net to zero and the dates are ordered. -/
def VoidNetsToZero (L : List ClaimTxn) (t : ClaimTxn) : Prop :=
  ∃ t2 ∈ L, t.void_of_transaction_id = some t2.transaction_id ∧
    t2.transaction_type = CTType.PAYMENT ∧ t2.claim_id = t.claim_id ∧
    t.amount = -t2.amount ∧ t.amount + t2.amount = 0 ∧
    t2.transaction_date ≤ t.transaction_date ∧
    t.transaction_date ≤ t.posting_date

/-- A void emitted right after its payment is matched by that payment. -/
theorem void_matches_payment (txnId : ℕ) (c : ClaimRow) (dr : ClaimTxnDraw)
    {L : List ClaimTxn} (hm : mkClaimTxn txnId c dr ∈ L)
    (hp : dr.txn_type = CTType.PAYMENT) :
    VoidNetsToZero L (mkVoidTxn (txnId + 1) c dr) := by
  refine ⟨mkClaimTxn txnId c dr, hm, ?_, hp, rfl, rfl, ?_, ?_, ?_⟩
  · simp [mkVoidTxn, mkClaimTxn]
  · simp [mkVoidTxn, mkClaimTxn]
  · simp [mkVoidTxn, mkClaimTxn]
  · simp [mkVoidTxn, mkClaimTxn]

theorem gen_ct_inner_voids (cap : ℕ) (c : ClaimRow) :
    ∀ (txnId : ℕ) (drs : List ClaimTxnDraw), (∀ dr ∈ drs, dr.Valid) →
      ∀ t ∈ (gen_ct_inner cap c txnId drs).1,
        t.transaction_type = CTType.VOID →
          VoidNetsToZero (gen_ct_inner cap c txnId drs).1 t := by
  intro txnId drs
  induction drs generalizing txnId with
  | nil => intro _ t ht; simp [gen_ct_inner] at ht
  | cons dr rest ih =>
    intro hv t ht hvoid
    have hdrv := hv dr (List.mem_cons_self _ _)
    have hbase : (mkClaimTxn txnId c dr).transaction_type ≠ CTType.VOID := by
      simpa [mkClaimTxn] using hdrv.1
    rw [gen_ct_inner] at ht ⊢
    by_cases hcap : cap < txnId
    · simp [hcap] at ht
    · simp only [hcap, if_false] at ht ⊢
      by_cases hpay : dr.txn_type = CTType.PAYMENT ∧ dr.voided = true
      · simp only [hpay, if_true] at ht ⊢
        by_cases hcap2 : cap < txnId + 1
        · simp only [hcap2, if_true] at ht ⊢
          rcases List.mem_singleton.mp ht with rfl
          exact absurd hvoid hbase
        · simp only [hcap2, if_false] at ht ⊢
          rcases List.mem_cons.mp ht with rfl | ht2
          · exact absurd hvoid hbase
          rcases List.mem_cons.mp ht2 with rfl | ht3
          · exact void_matches_payment txnId c dr
              (List.mem_cons_self _ _) hpay.1
          · obtain ⟨t2, hm2, hrest⟩ := ih (txnId + 2)
              (fun d hd => hv d (List.mem_cons_of_mem _ hd)) t ht3 hvoid
            exact ⟨t2, by simp [hm2], hrest⟩
      · simp only [hpay, if_false] at ht ⊢
        rcases List.mem_cons.mp ht with rfl | ht2
        · exact absurd hvoid hbase
        · obtain ⟨t2, hm2, hrest⟩ := ih (txnId + 1)
            (fun d hd => hv d (List.mem_cons_of_mem _ hd)) t ht2 hvoid
          exact ⟨t2, by simp [hm2], hrest⟩

theorem gen_ct_outer_voids (cap : ℕ) :
    ∀ (txnId : ℕ) (pairs : List (ClaimRow × List ClaimTxnDraw)),
      (∀ pr ∈ pairs, ∀ dr ∈ pr.2, dr.Valid) →
      ∀ t ∈ gen_ct_outer cap txnId pairs, t.transaction_type = CTType.VOID →
        VoidNetsToZero (gen_ct_outer cap txnId pairs) t := by
  intro txnId pairs
  induction pairs generalizing txnId with
  | nil => intro _ t ht; simp [gen_ct_outer] at ht
  | cons pr rest ih =>
    obtain ⟨c, drs⟩ := pr
    intro hv t ht hvoid
    have hinner := gen_ct_inner_voids cap c txnId drs
      (fun d hd => hv (c, drs) (List.mem_cons_self _ _) d hd)
    rw [gen_ct_outer] at ht ⊢
    by_cases hstop : (gen_ct_inner cap c txnId drs).2.2
    · simp only [hstop, if_true] at ht ⊢
      exact hinner t ht hvoid
    · simp only [hstop, Bool.false_eq_true, if_false] at ht ⊢
      rcases List.mem_append.mp ht with h1 | h2
      · obtain ⟨t2, hm2, hrest⟩ := hinner t h1 hvoid
        exact ⟨t2, List.mem_append_left _ hm2, hrest⟩
      · obtain ⟨t2, hm2, hrest⟩ := ih ((gen_ct_inner cap c txnId drs).2.1)
          (fun p hp d hd => hv p (List.mem_cons_of_mem _ hp) d hd) t h2 hvoid
        exact ⟨t2, List.mem_append_right _ hm2, hrest⟩

/-- C3: every generated claim transaction of type VOID refers, through
`void_of_transaction_id`, to an existing PAYMENT transaction of the same
claim; its amount is the exact negation of that payment's amount (the pair
sums to zero) and `posting_date(void) ≥ transaction_date(void) ≥
transaction_date(voided)`. -/
theorem void_refs_payment_nets_zero (claims : List ClaimRow)
    (draws : List (List ClaimTxnDraw))
    (hv : ∀ l ∈ draws, ∀ dr ∈ l, dr.Valid)
    (t : ClaimTxn) (ht : t ∈ gen_claim_transactions claims draws)
    (hvoid : t.transaction_type = CTType.VOID) :
    VoidNetsToZero (gen_claim_transactions claims draws) t := by
  apply gen_ct_outer_voids NUM_CLAIM_TRANSACTIONS 1
    ((get_active_claims claims).zip draws) _ t ht hvoid
  intro pr hpr dr hdr
  exact hv pr.2 (List.of_mem_zip hpr).2 dr hdr

/-- A concrete claim used to instantiate the theorems. -/
def wClaimRow : ClaimRow :=
  { claim_id := 1, policy_id := 1, insured_id := 1, line_of_business := Lob.HO,
    loss_date := 0, report_date := 0, entry_date := 0, processing_date := 0,
    claim_status := ClaimStatus.OPEN, cause_of_loss := ClaimCause.FIRE,
    reserve_amount := 1000, paid_loss_amount := 0, paid_alae_amount := 0,
    paid_ulae_amount := 0, salvage_amount := 0, subrogation_amount := 0,
    total_incurred := 1000, litigation_flag := false, fraud_indicator := false,
    close_date := none, reopen_date := none,
    source_system := SourceSystem.MANUAL_ENTRY, is_deleted := false,
    created_at := 0, updated_at := 0 }

/-- A concrete voided-payment draw used to instantiate the theorems. -/
def wCTDraw : ClaimTxnDraw :=
  { txn_type := CTType.PAYMENT, txn_date := 0, post_offset := 1,
    check_offset := 1, amount := 500, category := CTCategory.LOSS,
    voided := true, void_delay := 5, void_post_offset := 1 }

theorem void_refs_payment_nets_zero_witness :
    VoidNetsToZero (gen_claim_transactions [wClaimRow] [[wCTDraw]])
      (mkVoidTxn 2 wClaimRow wCTDraw) := by
  apply void_refs_payment_nets_zero [wClaimRow] [[wCTDraw]]
  · intro l hl dr hdr
    rw [List.mem_singleton] at hl
    subst hl
    rw [List.mem_singleton] at hdr
    subst hdr
    refine ⟨by simp [wCTDraw], by norm_num [wCTDraw], by norm_num [wCTDraw],
      by norm_num [wCTDraw], by norm_num [wCTDraw], by norm_num [wCTDraw],
      by norm_num [wCTDraw], by norm_num [wCTDraw]⟩
  · show mkVoidTxn 2 wClaimRow wCTDraw ∈
      gen_claim_transactions [wClaimRow] [[wCTDraw]]
    simp [gen_claim_transactions, get_active_claims, wClaimRow,
      NUM_CLAIM_TRANSACTIONS, gen_ct_outer, gen_ct_inner, wCTDraw]
  · simp [mkVoidTxn]

/-! Premium transactions. -/

/-- Premium-transaction types; `random.choice` in the source only ever
picks from the eight non-REVERSAL constructors. -/
inductive PTType where
  | WRITTEN | EARNED | UNEARNED | CEDED | RETURN | AUDIT | ENDORSEMENT
  | INSTALLMENT | REVERSAL
  deriving DecidableEq, Inhabited

/-- Outcomes of the random draws for one iteration of the inner loop of
`gen_premium_transactions` (one base transaction plus its potential
reversal). -/
structure PremTxnDraw where
  /-- `random.choice` over the eight non-REVERSAL transaction types. -/
  txn_type : PTType
  /-- `rand_date(2020, 2025)`. -/
  txn_date : Date
  /-- `random.randint(0, 30)`: accounting lag, never before the transaction. -/
  acct_offset : ℕ
  /-- `random.randint(0, 7)`: booking lag after accounting. -/
  book_offset : ℕ
  /-- `random.randint(0, 90)`: retroactive backdating, endorsements only. -/
  eff_backdate : ℕ
  /-- `round(random.uniform(-2000, 15000), 2)`. -/
  amount : ℚ
  /-- `random.choice(SOURCE_SYSTEMS)`. -/
  source_system : SourceSystem
  /-- whether `random.random() < 0.03` fired (transaction reversed). -/
  reversed : Bool
  /-- `random.randint(1, 45)`: reversal transaction-date lag. -/
  rev_delay : ℕ
  /-- `random.randint(0, 30)`: reversal accounting lag. -/
  rev_acct_offset : ℕ
  /-- `random.randint(0, 7)`: reversal booking lag. -/
  rev_book_offset : ℕ
  /-- `random.choice(SOURCE_SYSTEMS)` for the reversal row. -/
  rev_source_system : SourceSystem
  deriving DecidableEq

/-- One row of `core.premium_transactions` (cosmetic columns omitted;
`accounting_period` is a string rendering of `accounting_date`). -/
structure PremiumTxn where
  transaction_id : ℕ
  policy_id : ℕ
  line_of_business : Lob
  transaction_type : PTType
  transaction_date : Date
  accounting_date : Date
  booking_date : Date
  effective_date : Date
  amount : ℚ
  agent_id : ℕ
  is_reversal : Bool
  reversal_of_transaction_id : Option ℕ
  source_system : SourceSystem
  created_at : Date
  deriving DecidableEq

/-- The base premium transaction appended by the inner loop. -/
def mkPremTxn (txnId : ℕ) (pol : PolicyRow) (dr : PremTxnDraw) : PremiumTxn :=
  let acct := dr.txn_date + (dr.acct_offset : ℤ)
  { transaction_id := txnId
    policy_id := pol.policy_id
    line_of_business := pol.line_of_business
    transaction_type := dr.txn_type
    transaction_date := dr.txn_date
    accounting_date := acct
    booking_date := acct + (dr.book_offset : ℤ)
    effective_date :=
      if dr.txn_type = PTType.ENDORSEMENT then
        dr.txn_date - (dr.eff_backdate : ℤ)
      else dr.txn_date
    amount := dr.amount
    agent_id := pol.agent_id
    is_reversal := false
    reversal_of_transaction_id := none
    source_system := dr.source_system
    created_at := dr.txn_date }

/-- The REVERSAL transaction paired with a reversed base transaction; its
`effective_date` is the original transaction's `eff_date` variable, not
recomputed from the reversal's own dates. -/
def mkReversalTxn (txnId : ℕ) (pol : PolicyRow) (dr : PremTxnDraw) :
    PremiumTxn :=
  let rev_date := dr.txn_date + (dr.rev_delay : ℤ)
  let rev_acct := rev_date + (dr.rev_acct_offset : ℤ)
  { transaction_id := txnId
    policy_id := pol.policy_id
    line_of_business := pol.line_of_business
    transaction_type := PTType.REVERSAL
    transaction_date := rev_date
    accounting_date := rev_acct
    booking_date := rev_acct + (dr.rev_book_offset : ℤ)
    effective_date :=
      if dr.txn_type = PTType.ENDORSEMENT then
        dr.txn_date - (dr.eff_backdate : ℤ)
      else dr.txn_date
    amount := -dr.amount
    agent_id := pol.agent_id
    is_reversal := true
    reversal_of_transaction_id := some (txnId - 1)
    source_system := dr.rev_source_system
    created_at := rev_date }

/-- The inner loop of `gen_premium_transactions` over one current policy's
draws, with the global row cap and early `return` modelled as in
`gen_ct_inner`. -/
def gen_pt_inner (cap : ℕ) (pol : PolicyRow) :
    ℕ → List PremTxnDraw → List PremiumTxn × ℕ × Bool
  | txnId, [] => ([], txnId, false)
  | txnId, dr :: rest =>
      if cap < txnId then ([], txnId, true)
      else
        let t := mkPremTxn txnId pol dr
        if dr.reversed = true then
          if cap < txnId + 1 then ([t], txnId + 1, true)
          else
            let res := gen_pt_inner cap pol (txnId + 2) rest
            (t :: mkReversalTxn (txnId + 1) pol dr :: res.1, res.2.1, res.2.2)
        else
          let res := gen_pt_inner cap pol (txnId + 1) rest
          (t :: res.1, res.2.1, res.2.2)

/-- The outer loop of `gen_premium_transactions` over the current policies. -/
def gen_pt_outer (cap : ℕ) :
    ℕ → List (PolicyRow × List PremTxnDraw) → List PremiumTxn
  | _, [] => []
  | txnId, (pol, drs) :: rest =>
      let res := gen_pt_inner cap pol txnId drs
      if res.2.2 then res.1 else res.1 ++ gen_pt_outer cap res.2.1 rest

def NUM_PREMIUM_TRANSACTIONS : ℕ := 20000

/-- `gen_premium_transactions`, given one draw list per current policy. -/
def gen_premium_transactions (policies : List PolicyRow)
    (draws : List (List PremTxnDraw)) : List PremiumTxn :=
  gen_pt_outer NUM_PREMIUM_TRANSACTIONS 1
    ((get_current_policies policies).zip draws)

/-- Range constraints of the random calls behind one `PremTxnDraw`; in
particular `random.choice` never yields REVERSAL for the base type. -/
def PremTxnDraw.Valid (dr : PremTxnDraw) : Prop :=
  dr.txn_type ≠ PTType.REVERSAL ∧ dr.acct_offset ≤ 30 ∧ dr.book_offset ≤ 7 ∧
    dr.eff_backdate ≤ 90 ∧ (-2000 : ℚ) ≤ dr.amount ∧ dr.amount ≤ 15000 ∧
    1 ≤ dr.rev_delay ∧ dr.rev_delay ≤ 45 ∧ dr.rev_acct_offset ≤ 30 ∧
    dr.rev_book_offset ≤ 7

/-- Every emitted premium transaction is either a base transaction or a
reversal built from one of the claim's valid draws. -/
theorem mem_gen_pt_inner {cap : ℕ} {pol : PolicyRow} :
    ∀ {txnId : ℕ} {drs : List PremTxnDraw}, (∀ dr ∈ drs, dr.Valid) →
      ∀ t ∈ (gen_pt_inner cap pol txnId drs).1,
        ∃ dr, dr.Valid ∧ ∃ i2,
          t = mkPremTxn i2 pol dr ∨ t = mkReversalTxn i2 pol dr := by
  intro txnId drs
  induction drs generalizing txnId with
  | nil => intro _ t ht; simp [gen_pt_inner] at ht
  | cons dr rest ih =>
    intro hv t ht
    have hdrv := hv dr (List.mem_cons_self _ _)
    rw [gen_pt_inner] at ht
    by_cases hcap : cap < txnId
    · simp [hcap] at ht
    · simp only [hcap, if_false] at ht
      by_cases hrev : dr.reversed = true
      · simp only [hrev, if_true] at ht
        by_cases hcap2 : cap < txnId + 1
        · simp only [hcap2, if_true] at ht
          rcases List.mem_singleton.mp ht with rfl
          exact ⟨dr, hdrv, txnId, Or.inl rfl⟩
        · simp only [hcap2, if_false] at ht
          rcases List.mem_cons.mp ht with rfl | ht2
          · exact ⟨dr, hdrv, txnId, Or.inl rfl⟩
          rcases List.mem_cons.mp ht2 with rfl | ht3
          · exact ⟨dr, hdrv, txnId + 1, Or.inr rfl⟩
          · exact ih (fun d hd => hv d (List.mem_cons_of_mem _ hd)) t ht3
      · simp only [hrev, Bool.false_eq_true, if_false] at ht
        rcases List.mem_cons.mp ht with rfl | ht2
        · exact ⟨dr, hdrv, txnId, Or.inl rfl⟩
        · exact ih (fun d hd => hv d (List.mem_cons_of_mem _ hd)) t ht2

theorem mem_gen_pt_outer {cap : ℕ} :
    ∀ {txnId : ℕ} {pairs : List (PolicyRow × List PremTxnDraw)},
      (∀ pr ∈ pairs, ∀ dr ∈ pr.2, dr.Valid) →
      ∀ t ∈ gen_pt_outer cap txnId pairs,
        ∃ pol dr, dr.Valid ∧ ∃ i2,
          t = mkPremTxn i2 pol dr ∨ t = mkReversalTxn i2 pol dr := by
  intro txnId pairs
  induction pairs generalizing txnId with
  | nil => intro _ t ht; simp [gen_pt_outer] at ht
  | cons pr rest ih =>
    obtain ⟨pol, drs⟩ := pr
    intro hv t ht
    have hinner := @mem_gen_pt_inner cap pol txnId drs
      (fun d hd => hv (pol, drs) (List.mem_cons_self _ _) d hd)
    rw [gen_pt_outer] at ht
    by_cases hstop : (gen_pt_inner cap pol txnId drs).2.2
    · simp only [hstop, if_true] at ht
      obtain ⟨dr, hdrv, i2, hor⟩ := hinner t ht
      exact ⟨pol, dr, hdrv, i2, hor⟩
    · simp only [hstop, Bool.false_eq_true, if_false] at ht
      rcases List.mem_append.mp ht with h1 | h2
      · obtain ⟨dr, hdrv, i2, hor⟩ := hinner t h1
        exact ⟨pol, dr, hdrv, i2, hor⟩
      · exact ih (fun p hp d hd => hv p (List.mem_cons_of_mem _ hp) d hd) t h2

/-- C6 (amended): every premium transaction satisfies
`transaction_date ≤ accounting_date ≤ booking_date`; `effective_date`
equals `transaction_date` for every type other than ENDORSEMENT and
REVERSAL; an ENDORSEMENT's `effective_date` may precede (is at most) its
`transaction_date`; and a REVERSAL carries the reversed transaction's
`effective_date`, which always strictly precedes the reversal's own
`transaction_date`. -/
theorem premium_txn_date_semantics (policies : List PolicyRow)
    (draws : List (List PremTxnDraw))
    (hv : ∀ l ∈ draws, ∀ dr ∈ l, dr.Valid) :
    (∀ t ∈ gen_premium_transactions policies draws,
        t.transaction_date ≤ t.accounting_date ∧
          t.accounting_date ≤ t.booking_date) ∧
      (∀ t ∈ gen_premium_transactions policies draws,
        t.transaction_type ≠ PTType.ENDORSEMENT →
          t.transaction_type ≠ PTType.REVERSAL →
            t.effective_date = t.transaction_date) ∧
      (∀ t ∈ gen_premium_transactions policies draws,
        t.transaction_type = PTType.ENDORSEMENT →
          t.effective_date ≤ t.transaction_date) ∧
      (∀ t ∈ gen_premium_transactions policies draws,
        t.transaction_type = PTType.REVERSAL →
          t.effective_date < t.transaction_date ∧ t.is_reversal = true) := by
  have hshape : ∀ t ∈ gen_premium_transactions policies draws,
      ∃ pol dr, PremTxnDraw.Valid dr ∧ ∃ i2,
        t = mkPremTxn i2 pol dr ∨ t = mkReversalTxn i2 pol dr := by
    intro t ht
    apply mem_gen_pt_outer _ t ht
    intro pr hpr dr hdr
    exact hv pr.2 (List.of_mem_zip hpr).2 dr hdr
  refine ⟨?_, ?_, ?_, ?_⟩
  · intro t ht
    obtain ⟨pol, dr, hdrv, i2, rfl | rfl⟩ := hshape t ht
    · constructor <;> simp [mkPremTxn]
    · constructor <;> simp [mkReversalTxn]
  · intro t ht hne hnr
    obtain ⟨pol, dr, hdrv, i2, rfl | rfl⟩ := hshape t ht
    · have : dr.txn_type ≠ PTType.ENDORSEMENT := by
        simpa [mkPremTxn] using hne
      simp [mkPremTxn, this]
    · exact absurd rfl hnr
  · intro t ht hend
    obtain ⟨pol, dr, hdrv, i2, rfl | rfl⟩ := hshape t ht
    · have : dr.txn_type = PTType.ENDORSEMENT := by
        simpa [mkPremTxn] using hend
      simp [mkPremTxn, this]
    · simp [mkReversalTxn] at hend
  · intro t ht hrev
    obtain ⟨pol, dr, hdrv, i2, rfl | rfl⟩ := hshape t ht
    · exact absurd (by simpa [mkPremTxn] using hrev) hdrv.1
    · refine ⟨?_, rfl⟩
      have hd : 1 ≤ dr.rev_delay := hdrv.2.2.2.2.2.2.1
      show (mkReversalTxn i2 pol dr).effective_date <
        (mkReversalTxn i2 pol dr).transaction_date
      have hb : (0 : ℤ) ≤ (dr.eff_backdate : ℤ) := Int.ofNat_nonneg _
      have hdz : (1 : ℤ) ≤ (dr.rev_delay : ℤ) := by exact_mod_cast hd
      by_cases hend : dr.txn_type = PTType.ENDORSEMENT
      · show (if dr.txn_type = PTType.ENDORSEMENT then
            dr.txn_date - (dr.eff_backdate : ℤ) else dr.txn_date) <
          dr.txn_date + (dr.rev_delay : ℤ)
        rw [if_pos hend]
        linarith
      · show (if dr.txn_type = PTType.ENDORSEMENT then
            dr.txn_date - (dr.eff_backdate : ℤ) else dr.txn_date) <
          dr.txn_date + (dr.rev_delay : ℤ)
        rw [if_neg hend]
        linarith

/-- The unique current version row generated from the witness draw. -/
def wPolicyRow : PolicyRow := mkVersionRow 1 1 wPolicyDraw 0 (wVersionDraw 10)

/-- A concrete reversed WRITTEN-transaction draw. -/
def wPTDraw : PremTxnDraw :=
  { txn_type := PTType.WRITTEN, txn_date := 0, acct_offset := 3,
    book_offset := 2, eff_backdate := 0, amount := 100,
    source_system := SourceSystem.MANUAL_ENTRY, reversed := true,
    rev_delay := 5, rev_acct_offset := 3, rev_book_offset := 2,
    rev_source_system := SourceSystem.MANUAL_ENTRY }

theorem wPTDraw_valid : ∀ l ∈ [[wPTDraw]], ∀ dr ∈ l, dr.Valid := by
  intro l hl dr hdr
  rw [List.mem_singleton] at hl
  subst hl
  rw [List.mem_singleton] at hdr
  subst hdr
  refine ⟨by simp [wPTDraw], ?_⟩
  norm_num [wPTDraw]

theorem premium_txn_date_semantics_witness :
    (∀ t ∈ gen_premium_transactions [wPolicyRow] [[wPTDraw]],
        t.transaction_date ≤ t.accounting_date ∧
          t.accounting_date ≤ t.booking_date) ∧
      (∀ t ∈ gen_premium_transactions [wPolicyRow] [[wPTDraw]],
        t.transaction_type ≠ PTType.ENDORSEMENT →
          t.transaction_type ≠ PTType.REVERSAL →
            t.effective_date = t.transaction_date) ∧
      (∀ t ∈ gen_premium_transactions [wPolicyRow] [[wPTDraw]],
        t.transaction_type = PTType.ENDORSEMENT →
          t.effective_date ≤ t.transaction_date) ∧
      (∀ t ∈ gen_premium_transactions [wPolicyRow] [[wPTDraw]],
        t.transaction_type = PTType.REVERSAL →
          t.effective_date < t.transaction_date ∧ t.is_reversal = true) :=
  premium_txn_date_semantics [wPolicyRow] [[wPTDraw]] wPTDraw_valid

/-- C6 (counterexample to the claim as stated): on a valid input whose one
WRITTEN transaction draws a reversal, the generated REVERSAL row is not an
ENDORSEMENT yet its `effective_date` (inherited from the reversed
transaction) differs from — strictly precedes — its own
`transaction_date`. -/
theorem premium_effective_date_claim_false :
    (∀ l ∈ [[wPTDraw]], ∀ dr ∈ l, dr.Valid) ∧
      ¬ (∀ t ∈ gen_premium_transactions [wPolicyRow] [[wPTDraw]],
          t.transaction_type ≠ PTType.ENDORSEMENT →
            t.effective_date = t.transaction_date) := by
  refine ⟨wPTDraw_valid, ?_⟩
  intro hall
  have hmem : mkReversalTxn 2 wPolicyRow wPTDraw ∈
      gen_premium_transactions [wPolicyRow] [[wPTDraw]] := by
    simp [gen_premium_transactions, get_current_policies, wPolicyRow,
      NUM_PREMIUM_TRANSACTIONS, gen_pt_outer, gen_pt_inner, wPTDraw,
      mkVersionRow_is_current, mkVersionRow_is_deleted, wPolicyDraw,
      PolicyDraw.numVersions]
  have h1 := hall (mkReversalTxn 2 wPolicyRow wPTDraw) hmem
    (by simp [mkReversalTxn])
  rw [mkReversalTxn] at h1
  simp [wPTDraw] at h1

/-! Coverages, quotes and unstructured notes. -/

/-- Outcomes of the random draws for one coverage row (the coverage code
and rating class are cosmetic and omitted). -/
structure CoverageDraw where
  /-- `random.choice` over the coverage limits. -/
  coverage_limit : ℚ
  /-- `random.choice([0, 250, 500, 1000, 2500])`. -/
  coverage_deductible : ℚ
  /-- `round(random.uniform(50, 5000), 2)`. -/
  premium_amount : ℚ
  /-- `round(random.uniform(0.5, 50), 2)`. -/
  exposure_units : ℚ
  deriving DecidableEq

/-- One row of `core.coverages` (cosmetic columns omitted). -/
structure CoverageRow where
  coverage_id : ℕ
  policy_id : ℕ
  coverage_limit : ℚ
  coverage_deductible : ℚ
  premium_amount : ℚ
  exposure_units : ℚ
  effective_date : Date
  expiration_date : Date
  deriving DecidableEq

def mkCoverage (covId : ℕ) (pol : PolicyRow) (cd : CoverageDraw) :
    CoverageRow :=
  { coverage_id := covId, policy_id := pol.policy_id,
    coverage_limit := cd.coverage_limit,
    coverage_deductible := cd.coverage_deductible,
    premium_amount := cd.premium_amount, exposure_units := cd.exposure_units,
    effective_date := pol.effective_date,
    expiration_date := pol.expiration_date }

/-- The inner loop of `gen_coverages` over one policy's 1-5 coverage draws,
with the global cap and early `return`. -/
def gen_cov_inner (cap : ℕ) (pol : PolicyRow) :
    ℕ → List CoverageDraw → List CoverageRow × ℕ × Bool
  | covId, [] => ([], covId, false)
  | covId, cd :: rest =>
      if cap < covId then ([], covId, true)
      else
        let res := gen_cov_inner cap pol (covId + 1) rest
        (mkCoverage covId pol cd :: res.1, res.2.1, res.2.2)

/-- The outer loop of `gen_coverages` over the current policies. -/
def gen_cov_outer (cap : ℕ) :
    ℕ → List (PolicyRow × List CoverageDraw) → List CoverageRow
  | _, [] => []
  | covId, (pol, cds) :: rest =>
      let res := gen_cov_inner cap pol covId cds
      if res.2.2 then res.1 else res.1 ++ gen_cov_outer cap res.2.1 rest

def NUM_COVERAGES : ℕ := 12000

/-- `gen_coverages`, given one draw list per current policy. -/
def gen_coverages (policies : List PolicyRow)
    (draws : List (List CoverageDraw)) : List CoverageRow :=
  gen_cov_outer NUM_COVERAGES 1 ((get_current_policies policies).zip draws)

/-- Quote statuses. -/
inductive QuoteStatus where
  | QUOTED | BOUND | DECLINED | EXPIRED | LOST
  deriving DecidableEq, Inhabited

/-- Outcomes of the random draws for one quote (decline reason and
competitor name are cosmetic and omitted). -/
structure QuoteDraw where
  /-- `insured_id` of `random.choice(insureds)`. -/
  insured_id : ℕ
  /-- `agent_id` of `random.choice(agents)`. -/
  agent_id : ℕ
  /-- `random.choice(LOB_CODES)`. -/
  lob : Lob
  /-- `rand_date(2020, 2025)`. -/
  quote_date : Date
  /-- `rand_premium()`. -/
  quoted_premium : ℚ
  /-- `random.choice` over the quote statuses. -/
  status : QuoteStatus
  /-- `maybe_null(random.randint(1, NUM_POLICIES), 0.65)`. -/
  bound_policy_id : Option ℕ
  /-- `random.choice(SOURCE_SYSTEMS)`. -/
  source_system : SourceSystem
  deriving DecidableEq

/-- One row of `core.quotes` (cosmetic columns omitted). -/
structure QuoteRow where
  quote_id : ℕ
  insured_id : ℕ
  agent_id : ℕ
  line_of_business : Lob
  quote_date : Date
  quoted_premium : ℚ
  status : QuoteStatus
  bound_policy_id : Option ℕ
  source_system : SourceSystem
  created_at : Date
  deriving DecidableEq

def mkQuote (i : ℕ) (qd : QuoteDraw) : QuoteRow :=
  { quote_id := i, insured_id := qd.insured_id, agent_id := qd.agent_id,
    line_of_business := qd.lob, quote_date := qd.quote_date,
    quoted_premium := qd.quoted_premium, status := qd.status,
    bound_policy_id := qd.bound_policy_id, source_system := qd.source_system,
    created_at := qd.quote_date }

def gen_quotes_aux : ℕ → List QuoteDraw → List QuoteRow
  | _, [] => []
  | i, qd :: rest => mkQuote i qd :: gen_quotes_aux (i + 1) rest

/-- `gen_quotes`, given the outcome of every random draw (quote ids start
at 1, one draw per quote). -/
def gen_quotes (draws : List QuoteDraw) : List QuoteRow :=
  gen_quotes_aux 1 draws

/-- Range constraint of the `bound_policy_id` draw relative to the number
`n` of generated policies: `random.randint(1, NUM_POLICIES)`. -/
def QuoteDraw.Valid (n : ℕ) (qd : QuoteDraw) : Prop :=
  ∀ pid, qd.bound_policy_id = some pid → 1 ≤ pid ∧ pid ≤ n

/-- The two kinds of entity a free-text note can attach to. -/
inductive NoteEntityType where
  | CLAIM | POLICY
  deriving DecidableEq, Inhabited

/-- One row of `unstructured.notes` (free-text columns omitted, keeping the
weak `(entity_type, entity_id)` reference). -/
structure NoteRow where
  note_id : ℕ
  entity_type : NoteEntityType
  entity_id : ℕ
  deriving DecidableEq

instance : Inhabited ClaimRow := ⟨wClaimRow⟩

/-- The 1-5 notes emitted for one sampled claim. -/
def emit_claim_notes (c : ClaimRow) : ℕ → ℕ → List NoteRow
  | _, 0 => []
  | nid, Nat.succ k =>
      { note_id := nid, entity_type := NoteEntityType.CLAIM,
        entity_id := c.claim_id } :: emit_claim_notes c (nid + 1) k

/-- The claim-notes loop of `gen_unstructured_notes`: `random.sample` over
the active claims is modelled by the list of sampled indices with the
per-claim `randint(1, 5)` note counts. -/
def gen_notes_claims (active : List ClaimRow) :
    ℕ → List (ℕ × ℕ) → List NoteRow × ℕ
  | nid, [] => ([], nid)
  | nid, (idx, cnt) :: rest =>
      let ns := emit_claim_notes (active.getD idx default) nid cnt
      let res := gen_notes_claims active (nid + cnt) rest
      (ns ++ res.1, res.2)

/-- The policy-notes loop of `gen_unstructured_notes` (one note per sampled
current policy). -/
def gen_notes_policies (current : List PolicyRow) : ℕ → List ℕ → List NoteRow
  | _, [] => []
  | nid, idx :: rest =>
      { note_id := nid, entity_type := NoteEntityType.POLICY,
        entity_id := (current.getD idx default).policy_id } ::
        gen_notes_policies current (nid + 1) rest

/-- `gen_unstructured_notes`, given the sampled claim indices (with note
counts) and the sampled current-policy indices. -/
def gen_unstructured_notes (claims : List ClaimRow)
    (policies : List PolicyRow) (claimSample : List (ℕ × ℕ))
    (polSample : List ℕ) : List NoteRow :=
  let res := gen_notes_claims (get_active_claims claims) 1 claimSample
  res.1 ++ gen_notes_policies (get_current_policies policies) res.2 polSample

/-- Range constraints of the random draws behind one `ClaimDraw`, relative
to the number `n` of current policies. -/
def ClaimDraw.Valid (n : ℕ) (cd : ClaimDraw) : Prop :=
  cd.policy_idx < n ∧ cd.report_offset ≤ 60 ∧ cd.entry_offset ≤ 30 ∧
    cd.processing_offset ≤ 7 ∧ 30 ≤ cd.close_offset ∧ cd.close_offset ≤ 730 ∧
    30 ≤ cd.reopen_offset ∧ cd.reopen_offset ≤ 365 ∧
    (500 : ℚ) ≤ cd.reserve ∧ cd.reserve ≤ 200000 ∧
    (0 : ℚ) ≤ cd.paid_loss ∧ cd.paid_loss ≤ 150000 ∧
    (0 : ℚ) ≤ cd.paid_alae ∧ cd.paid_alae ≤ 30000 ∧
    (0 : ℚ) ≤ cd.paid_ulae ∧ cd.paid_ulae ≤ 10000 ∧
    (0 : ℚ) ≤ cd.salvage ∧ cd.salvage ≤ 5000 ∧
    (0 : ℚ) ≤ cd.subro ∧ cd.subro ≤ 10000

theorem getD_mem_of_lt {α : Type} [Inhabited α] (l : List α) (i : ℕ)
    (h : i < l.length) : l.getD i default ∈ l := by
  rw [List.getD_eq_getElem l default h]
  exact List.getElem_mem h

/-- Every generated `policy_id` appears among the ids of the current,
non-deleted policy rows. -/
theorem current_ids_complete {draws : List PolicyDraw}
    (hv : ∀ d ∈ draws, d.Valid) {pid : ℕ} (h1 : 1 ≤ pid)
    (h2 : pid ≤ draws.length) :
    pid ∈ (get_current_policies (gen_policies_with_cdc draws)).map
      (fun r => r.policy_id) := by
  obtain ⟨d, hd, r0, hfe⟩ := gen_policies_aux_filter pid 1 0 draws h1
    (by omega)
  obtain ⟨-, -, -, -, -, -, -, -, -, -, -, hlen, -⟩ := hv d hd
  have hcount := genVersionRows_current_count pid d r0 0 d.versions (by omega)
  have hne2 : d.versions ≠ [] := versions_ne_nil (hv d hd)
  have hEmp : d.versions.isEmpty = false := by
    simpa [List.isEmpty_iff] using hne2
  have hpos : 0 < (genVersionRows pid d r0 0 d.versions).countP
      (fun r => r.is_current_record && !r.is_deleted) := by
    rw [hcount.2.1, hEmp]; simp
  obtain ⟨rc, hrc, hrcc⟩ := List.countP_pos_iff.mp hpos
  rw [← hfe] at hrc
  have h3 := List.mem_filter.mp hrc
  refine List.mem_map.mpr ⟨rc, ?_, by simpa using h3.2⟩
  exact List.mem_filter.mpr ⟨h3.1, hrcc⟩

theorem gen_cov_inner_policy_id {cap : ℕ} {pol : PolicyRow} :
    ∀ {covId : ℕ} {cds : List CoverageDraw},
      ∀ c ∈ (gen_cov_inner cap pol covId cds).1,
        c.policy_id = pol.policy_id := by
  intro covId cds
  induction cds generalizing covId with
  | nil => intro c hc; simp [gen_cov_inner] at hc
  | cons cd rest ih =>
    intro c hc
    rw [gen_cov_inner] at hc
    by_cases hcap : cap < covId
    · simp [hcap] at hc
    · simp only [hcap, if_false] at hc
      rcases List.mem_cons.mp hc with rfl | h2
      · rfl
      · exact ih c h2

theorem gen_cov_outer_shape {cap : ℕ} :
    ∀ {covId : ℕ} {pairs : List (PolicyRow × List CoverageDraw)},
      ∀ c ∈ gen_cov_outer cap covId pairs,
        ∃ pr ∈ pairs, c.policy_id = pr.1.policy_id := by
  intro covId pairs
  induction pairs generalizing covId with
  | nil => intro c hc; simp [gen_cov_outer] at hc
  | cons pr rest ih =>
    obtain ⟨pol, cds⟩ := pr
    intro c hc
    rw [gen_cov_outer] at hc
    by_cases hstop : (gen_cov_inner cap pol covId cds).2.2
    · simp only [hstop, if_true] at hc
      exact ⟨(pol, cds), List.mem_cons_self _ _, gen_cov_inner_policy_id c hc⟩
    · simp only [hstop, Bool.false_eq_true, if_false] at hc
      rcases List.mem_append.mp hc with h1 | h2
      · exact ⟨(pol, cds), List.mem_cons_self _ _,
          gen_cov_inner_policy_id c h1⟩
      · obtain ⟨pr2, hpr2, he⟩ := ih c h2
        exact ⟨pr2, List.mem_cons_of_mem _ hpr2, he⟩

theorem mem_gen_claims_aux {current : List PolicyRow} :
    ∀ {i : ℕ} {cds : List ClaimDraw}, ∀ cl ∈ gen_claims_aux current i cds,
      ∃ cd ∈ cds, ∃ j,
        cl = mkClaim j (current.getD cd.policy_idx default) cd := by
  intro i cds
  induction cds generalizing i with
  | nil => intro cl hcl; simp [gen_claims_aux] at hcl
  | cons cd rest ih =>
    intro cl hcl
    rw [gen_claims_aux] at hcl
    rcases List.mem_cons.mp hcl with rfl | h2
    · exact ⟨cd, List.mem_cons_self _ _, i, rfl⟩
    · obtain ⟨cd2, hcd2, j, he⟩ := ih cl h2
      exact ⟨cd2, List.mem_cons_of_mem _ hcd2, j, he⟩

theorem mem_gen_quotes_aux :
    ∀ {i : ℕ} {qds : List QuoteDraw}, ∀ q ∈ gen_quotes_aux i qds,
      ∃ qd ∈ qds, ∃ j, q = mkQuote j qd := by
  intro i qds
  induction qds generalizing i with
  | nil => intro q hq; simp [gen_quotes_aux] at hq
  | cons qd rest ih =>
    intro q hq
    rw [gen_quotes_aux] at hq
    rcases List.mem_cons.mp hq with rfl | h2
    · exact ⟨qd, List.mem_cons_self _ _, i, rfl⟩
    · obtain ⟨qd2, hqd2, j, he⟩ := ih q h2
      exact ⟨qd2, List.mem_cons_of_mem _ hqd2, j, he⟩

theorem mem_emit_claim_notes {c : ClaimRow} :
    ∀ {nid k : ℕ}, ∀ nt ∈ emit_claim_notes c nid k,
      nt.entity_type = NoteEntityType.CLAIM ∧ nt.entity_id = c.claim_id := by
  intro nid k
  induction k generalizing nid with
  | zero => intro nt hnt; simp [emit_claim_notes] at hnt
  | succ k ih =>
    intro nt hnt
    rw [emit_claim_notes] at hnt
    rcases List.mem_cons.mp hnt with rfl | h2
    · exact ⟨rfl, rfl⟩
    · exact ih nt h2

theorem mem_gen_notes_claims {active : List ClaimRow} :
    ∀ {nid : ℕ} {s : List (ℕ × ℕ)},
      ∀ nt ∈ (gen_notes_claims active nid s).1,
        ∃ pr ∈ s, nt.entity_type = NoteEntityType.CLAIM ∧
          nt.entity_id = (active.getD pr.1 default).claim_id := by
  intro nid s
  induction s generalizing nid with
  | nil => intro nt hnt; simp [gen_notes_claims] at hnt
  | cons pr rest ih =>
    obtain ⟨idx, cnt⟩ := pr
    intro nt hnt
    rw [gen_notes_claims] at hnt
    rcases List.mem_append.mp hnt with h1 | h2
    · obtain ⟨h3, h4⟩ := mem_emit_claim_notes nt h1
      exact ⟨(idx, cnt), List.mem_cons_self _ _, h3, h4⟩
    · obtain ⟨pr2, hpr2, h3⟩ := ih nt h2
      exact ⟨pr2, List.mem_cons_of_mem _ hpr2, h3⟩

theorem mem_gen_notes_policies {current : List PolicyRow} :
    ∀ {nid : ℕ} {s : List ℕ}, ∀ nt ∈ gen_notes_policies current nid s,
      ∃ idx ∈ s, nt.entity_type = NoteEntityType.POLICY ∧
        nt.entity_id = (current.getD idx default).policy_id := by
  intro nid s
  induction s generalizing nid with
  | nil => intro nt hnt; simp [gen_notes_policies] at hnt
  | cons idx rest ih =>
    intro nt hnt
    rw [gen_notes_policies] at hnt
    rcases List.mem_cons.mp hnt with rfl | h2
    · exact ⟨idx, List.mem_cons_self _ _, rfl, rfl⟩
    · obtain ⟨idx2, hidx2, h3⟩ := ih nt h2
      exact ⟨idx2, List.mem_cons_of_mem _ hidx2, h3⟩

theorem gen_ct_inner_claim_id {cap : ℕ} {c : ClaimRow} :
    ∀ {txnId : ℕ} {drs : List ClaimTxnDraw},
      ∀ t ∈ (gen_ct_inner cap c txnId drs).1, t.claim_id = c.claim_id := by
  intro txnId drs
  induction drs generalizing txnId with
  | nil => intro t ht; simp [gen_ct_inner] at ht
  | cons dr rest ih =>
    intro t ht
    rw [gen_ct_inner] at ht
    by_cases hcap : cap < txnId
    · simp [hcap] at ht
    · simp only [hcap, if_false] at ht
      by_cases hpay : dr.txn_type = CTType.PAYMENT ∧ dr.voided = true
      · simp only [hpay, if_true] at ht
        by_cases hcap2 : cap < txnId + 1
        · simp only [hcap2, if_true] at ht
          rcases List.mem_singleton.mp ht with rfl
          rfl
        · simp only [hcap2, if_false] at ht
          rcases List.mem_cons.mp ht with rfl | ht2
          · rfl
          rcases List.mem_cons.mp ht2 with rfl | ht3
          · rfl
          · exact ih t ht3
      · simp only [hpay, if_false] at ht
        rcases List.mem_cons.mp ht with rfl | ht2
        · rfl
        · exact ih t ht2

theorem gen_ct_outer_claim_id {cap : ℕ} :
    ∀ {txnId : ℕ} {pairs : List (ClaimRow × List ClaimTxnDraw)},
      ∀ t ∈ gen_ct_outer cap txnId pairs,
        ∃ pr ∈ pairs, t.claim_id = pr.1.claim_id := by
  intro txnId pairs
  induction pairs generalizing txnId with
  | nil => intro t ht; simp [gen_ct_outer] at ht
  | cons pr rest ih =>
    obtain ⟨c, drs⟩ := pr
    intro t ht
    rw [gen_ct_outer] at ht
    by_cases hstop : (gen_ct_inner cap c txnId drs).2.2
    · simp only [hstop, if_true] at ht
      exact ⟨(c, drs), List.mem_cons_self _ _, gen_ct_inner_claim_id t ht⟩
    · simp only [hstop, Bool.false_eq_true, if_false] at ht
      rcases List.mem_append.mp ht with h1 | h2
      · exact ⟨(c, drs), List.mem_cons_self _ _, gen_ct_inner_claim_id t h1⟩
      · obtain ⟨pr2, hpr2, he⟩ := ih t h2
        exact ⟨pr2, List.mem_cons_of_mem _ hpr2, he⟩

/-- C7: coverages, claims, quotes and notes reference only policies drawn
from the current, non-deleted policy set, and claim transactions reference
only non-deleted claims. -/
theorem referential_integrity_current_nondeleted
    (pdraws : List PolicyDraw) (hpv : ∀ d ∈ pdraws, d.Valid)
    (cdraws : List ClaimDraw)
    (hcv : ∀ cd ∈ cdraws, cd.Valid
      (get_current_policies (gen_policies_with_cdc pdraws)).length)
    (covDraws : List (List CoverageDraw))
    (qdraws : List QuoteDraw) (hqv : ∀ qd ∈ qdraws, qd.Valid pdraws.length)
    (ctDraws : List (List ClaimTxnDraw))
    (claimSample : List (ℕ × ℕ))
    (hcs : ∀ pr ∈ claimSample, pr.1 < (get_active_claims
      (gen_claims (gen_policies_with_cdc pdraws) cdraws)).length)
    (polSample : List ℕ)
    (hps : ∀ idx ∈ polSample,
      idx < (get_current_policies (gen_policies_with_cdc pdraws)).length) :
    (∀ cov ∈ gen_coverages (gen_policies_with_cdc pdraws) covDraws,
        cov.policy_id ∈ (get_current_policies
          (gen_policies_with_cdc pdraws)).map (fun r => r.policy_id)) ∧
      (∀ cl ∈ gen_claims (gen_policies_with_cdc pdraws) cdraws,
        cl.policy_id ∈ (get_current_policies
          (gen_policies_with_cdc pdraws)).map (fun r => r.policy_id)) ∧
      (∀ q ∈ gen_quotes qdraws, ∀ pid, q.bound_policy_id = some pid →
        pid ∈ (get_current_policies
          (gen_policies_with_cdc pdraws)).map (fun r => r.policy_id)) ∧
      (∀ nt ∈ gen_unstructured_notes
          (gen_claims (gen_policies_with_cdc pdraws) cdraws)
          (gen_policies_with_cdc pdraws) claimSample polSample,
        (nt.entity_type = NoteEntityType.POLICY →
          nt.entity_id ∈ (get_current_policies
            (gen_policies_with_cdc pdraws)).map (fun r => r.policy_id)) ∧
        (nt.entity_type = NoteEntityType.CLAIM →
          nt.entity_id ∈ (get_active_claims
            (gen_claims (gen_policies_with_cdc pdraws) cdraws)).map
              (fun c => c.claim_id))) ∧
      (∀ t ∈ gen_claim_transactions
          (gen_claims (gen_policies_with_cdc pdraws) cdraws) ctDraws,
        t.claim_id ∈ (get_active_claims
          (gen_claims (gen_policies_with_cdc pdraws) cdraws)).map
            (fun c => c.claim_id)) := by
  refine ⟨?_, ?_, ?_, ?_, ?_⟩
  · intro cov hcov
    obtain ⟨pr, hpr, he⟩ := gen_cov_outer_shape cov hcov
    exact List.mem_map.mpr ⟨pr.1, (List.of_mem_zip hpr).1, he.symm⟩
  · intro cl hcl
    obtain ⟨cd, hcd, j, rfl⟩ := mem_gen_claims_aux cl hcl
    have hidx := (hcv cd hcd).1
    refine List.mem_map.mpr ⟨_, getD_mem_of_lt _ _ hidx, rfl⟩
  · intro q hq pid hpid
    obtain ⟨qd, hqd, j, rfl⟩ := mem_gen_quotes_aux q hq
    have hb : qd.bound_policy_id = some pid := hpid
    obtain ⟨h1, h2⟩ := hqv qd hqd pid hb
    exact current_ids_complete hpv h1 h2
  · intro nt hnt
    rw [gen_unstructured_notes] at hnt
    rcases List.mem_append.mp hnt with h1 | h2
    · obtain ⟨pr, hpr, h3, h4⟩ := mem_gen_notes_claims nt h1
      constructor
      · intro hp; rw [h3] at hp; cases hp
      · intro _
        rw [h4]
        exact List.mem_map.mpr ⟨_, getD_mem_of_lt _ _ (hcs pr hpr), rfl⟩
    · obtain ⟨idx, hidx, h3, h4⟩ := mem_gen_notes_policies nt h2
      constructor
      · intro _
        rw [h4]
        exact List.mem_map.mpr ⟨_, getD_mem_of_lt _ _ (hps idx hidx), rfl⟩
      · intro hp; rw [h3] at hp; cases hp
  · intro t ht
    obtain ⟨pr, hpr, he⟩ := gen_ct_outer_claim_id t ht
    exact List.mem_map.mpr ⟨pr.1, (List.of_mem_zip hpr).1, he.symm⟩

theorem mkClaim_is_deleted (i : ℕ) (pol : PolicyRow) (cd : ClaimDraw) :
    (mkClaim i pol cd).is_deleted = cd.deleted := rfl

theorem current_wPolicy :
    get_current_policies (gen_policies_with_cdc [wPolicyDraw]) =
      [wPolicyRow] := by
  rw [gen_single]
  simp [wPolicyDraw, genVersionRows, get_current_policies, wPolicyRow,
    mkVersionRow_is_current, mkVersionRow_is_deleted, PolicyDraw.numVersions,
    wVersionDraw]

/-- A concrete claim draw referencing the only current policy. -/
def wClaimDraw : ClaimDraw :=
  { policy_idx := 0, loss_date := 0, report_offset := 1, entry_offset := 1,
    processing_offset := 1, closes := false, close_offset := 30,
    reopens := false, reopen_offset := 30, base_status := ClaimStatus.OPEN,
    cause := ClaimCause.FIRE, reserve := 1000, paid_loss := 10,
    paid_alae := 10, paid_ulae := 10, salvage := 10, subro := 10,
    litigation := false, fraud := false, deleted := false,
    source_system := SourceSystem.MANUAL_ENTRY }

/-- A concrete bound quote referencing policy 1. -/
def wQuoteDraw : QuoteDraw :=
  { insured_id := 1, agent_id := 1, lob := Lob.HO, quote_date := 0,
    quoted_premium := 500, status := QuoteStatus.BOUND,
    bound_policy_id := some 1, source_system := SourceSystem.MANUAL_ENTRY }

/-- A concrete coverage draw. -/
def wCovDraw : CoverageDraw :=
  { coverage_limit := 100000, coverage_deductible := 500,
    premium_amount := 100, exposure_units := 1 }

theorem referential_integrity_current_nondeleted_witness :
    (∀ cov ∈ gen_coverages (gen_policies_with_cdc [wPolicyDraw]) [[wCovDraw]],
        cov.policy_id ∈ (get_current_policies
          (gen_policies_with_cdc [wPolicyDraw])).map (fun r => r.policy_id)) ∧
      (∀ cl ∈ gen_claims (gen_policies_with_cdc [wPolicyDraw]) [wClaimDraw],
        cl.policy_id ∈ (get_current_policies
          (gen_policies_with_cdc [wPolicyDraw])).map (fun r => r.policy_id)) ∧
      (∀ q ∈ gen_quotes [wQuoteDraw], ∀ pid, q.bound_policy_id = some pid →
        pid ∈ (get_current_policies
          (gen_policies_with_cdc [wPolicyDraw])).map (fun r => r.policy_id)) ∧
      (∀ nt ∈ gen_unstructured_notes
          (gen_claims (gen_policies_with_cdc [wPolicyDraw]) [wClaimDraw])
          (gen_policies_with_cdc [wPolicyDraw]) [(0, 1)] [0],
        (nt.entity_type = NoteEntityType.POLICY →
          nt.entity_id ∈ (get_current_policies
            (gen_policies_with_cdc [wPolicyDraw])).map
              (fun r => r.policy_id)) ∧
        (nt.entity_type = NoteEntityType.CLAIM →
          nt.entity_id ∈ (get_active_claims
            (gen_claims (gen_policies_with_cdc [wPolicyDraw])
              [wClaimDraw])).map (fun c => c.claim_id))) ∧
      (∀ t ∈ gen_claim_transactions
          (gen_claims (gen_policies_with_cdc [wPolicyDraw]) [wClaimDraw])
          [[wCTDraw]],
        t.claim_id ∈ (get_active_claims
          (gen_claims (gen_policies_with_cdc [wPolicyDraw])
            [wClaimDraw])).map (fun c => c.claim_id)) := by
  apply referential_integrity_current_nondeleted [wPolicyDraw]
    wPolicyDraw_valid [wClaimDraw] ?_ [[wCovDraw]] [wQuoteDraw] ?_
    [[wCTDraw]] [(0, 1)] ?_ [0] ?_
  · intro cd hcd
    rw [List.mem_singleton] at hcd
    subst hcd
    simp only [current_wPolicy, List.length_singleton]
    refine ⟨by norm_num [wClaimDraw], ?_⟩
    norm_num [wClaimDraw]
  · intro qd hqd
    rw [List.mem_singleton] at hqd
    subst hqd
    intro pid hpid
    have h1 : 1 = pid := Option.some_inj.mp
      (show some 1 = some pid from hpid)
    subst h1
    exact ⟨le_refl 1, by simp⟩
  · intro pr hpr
    rw [List.mem_singleton] at hpr
    subst hpr
    simp [gen_claims, current_wPolicy, gen_claims_aux, get_active_claims,
      mkClaim_is_deleted, wClaimDraw]
  · intro idx hidx
    rw [List.mem_singleton] at hidx
    subst hidx
    simp [current_wPolicy]

/-! The answer-comparison logic of the scoring harness (evals/run_eval.py). -/

/-- Python values appearing as expected values or inside a keyed
`numeric_result`. -/
inductive PyVal where
  | num (q : ℚ)
  | str (s : String)
  | vnone
  deriving DecidableEq

/-- The agent's `numeric_result`: a scalar, a keyed mapping, or `None`. -/
inductive NumericResult where
  | scalar (q : ℚ)
  | keyed (m : List (String × PyVal))
  | vnone
  deriving DecidableEq

def digitsToNat (cs : List Char) : ℕ :=
  cs.foldl (fun acc c => acc * 10 + (c.toNat - 48)) 0

def stripSign : List Char → ℚ × List Char
  | '-' :: cs => (-1, cs)
  | '+' :: cs => (1, cs)
  | cs => (1, cs)

/-- Python `float(s)` on a string, modelled for signed decimal literals
(the only shapes the question files and agents produce). -/
def parse_float (s : String) : Option ℚ :=
  let sr := stripSign s.trim.data
  let ds := (sr.2.span (fun c => c.isDigit))
  match ds.2 with
  | [] => if ds.1.isEmpty then none else some (sr.1 * digitsToNat ds.1)
  | '.' :: fp =>
      if fp.all (fun c => c.isDigit) && !(ds.1.isEmpty && fp.isEmpty) then
        some (sr.1 * ((digitsToNat ds.1 : ℚ) +
          (digitsToNat fp : ℚ) / (10 : ℚ) ^ fp.length))
      else none
  | _ => none

/-- Python `float(v)`: identity on numbers, `parse_float` on strings,
undefined (a `TypeError`) on `None`. -/
def py_float? : PyVal → Option ℚ
  | PyVal.num q => some q
  | PyVal.str s => parse_float s
  | PyVal.vnone => none

/-- Python `str(v)`; the rendering of numbers is modelled by `toString` on
rationals (the string branch is only reached when the other side failed to
parse as a float, where any canonical rendering refutes equality the same
way). -/
def py_str : PyVal → String
  | PyVal.num q => toString q
  | PyVal.str s => s
  | PyVal.vnone => "None"

/-- The dict returned by `compare_numeric`. -/
structure CompareResult where
  passed : Bool
  actual : ℚ
  expected : ℚ
  abs_error : ℚ
  rel_error : Option ℚ
  deriving DecidableEq

/-- `compare_numeric`: relative tolerance, with an absolute fallback of
0.01 when the expected value is zero. -/
def compare_numeric (actual expected tolerance : ℚ) : CompareResult :=
  if expected = 0 then
    { passed := decide (|actual| < 1 / 100), actual := actual,
      expected := expected, abs_error := |actual|, rel_error := none }
  else
    { passed := decide (|actual - expected| / |expected| ≤ tolerance),
      actual := actual, expected := expected,
      abs_error := roundTo 6 |actual - expected|,
      rel_error := some (roundTo 6 (|actual - expected| / |expected|)) }

/-- Consume `\d+\.?\d*` from the head of the character list. -/
def consumeNum (cs : List Char) : ℚ :=
  let ip := cs.span (fun c => c.isDigit)
  match ip.2 with
  | '.' :: fp2 =>
      let fp := fp2.span (fun c => c.isDigit)
      (digitsToNat ip.1 : ℚ) + (digitsToNat fp.1 : ℚ) / (10 : ℚ) ^ fp.1.length
  | _ => (digitsToNat ip.1 : ℚ)

/-- Left-to-right scan for the first match of the regex `-?\d+\.?\d*`. -/
def scanNum : List Char → Option ℚ
  | [] => none
  | c :: cs =>
      if c.isDigit then some (consumeNum (c :: cs))
      else if c = '-' then
        match cs with
        | d :: _ => if d.isDigit then some (-consumeNum cs) else scanNum cs
        | [] => none
      else scanNum cs

/-- `extract_number`: strip thousands separators, currency and percent
symbols, then take the first number-like substring. -/
def extract_number (text : String) : Option ℚ :=
  scanNum (text.data.filter (fun c => c ≠ ',' ∧ c ≠ '$' ∧ c ≠ '%'))

/-- The `tolerance` field of a merged question record: a numeric fraction
or one of the literal strings. -/
inductive Tolerance where
  | frac (t : ℚ)
  | exact
  | qualitative
  deriving DecidableEq

/-- `float(tolerance) if tolerance != "exact" else 0.0`; the qualitative
case is unreachable (the harness returns before any comparison). -/
def tolerance_value : Tolerance → ℚ
  | Tolerance.frac t => t
  | Tolerance.exact => 0
  | Tolerance.qualitative => 0

/-- A merged question record (id, category, difficulty and the gold query
text are payload and omitted). -/
structure Question where
  expected_value : Option PyVal
  expected_values : Option (List (String × PyVal))
  tolerance : Tolerance
  deriving DecidableEq

/-- The agent's answer (`sql_used` is payload and omitted). -/
structure AgentAnswer where
  response : String
  numeric_result : NumericResult
  deriving DecidableEq

/-- The result of a successful gold query: its rows. -/
structure GoldAnswer where
  rows : List (List (String × PyVal))
  deriving DecidableEq

/-- The exceptions `float(...)` can raise. -/
inductive PyError where
  | valueError
  | typeError
  deriving DecidableEq

/-- `float(v)` where a failure propagates as an exception. -/
def py_float_err : PyVal → Except PyError ℚ
  | PyVal.num q => Except.ok q
  | PyVal.str s =>
      match parse_float s with
      | some q => Except.ok q
      | none => Except.error PyError.valueError
  | PyVal.vnone => Except.error PyError.typeError

/-- The comparison outcome of one key of a keyed answer. -/
inductive KeyCmp where
  | numCmp (c : CompareResult)
  | strCmp (passed : Bool) (actual expected : PyVal)
  | missingKey
  deriving DecidableEq

def KeyCmp.passed : KeyCmp → Bool
  | KeyCmp.numCmp c => c.passed
  | KeyCmp.strCmp p _ _ => p
  | KeyCmp.missingKey => false

/-- One iteration of the `expected_values` loop: numeric comparison when
both sides convert with `float`, case-insensitive trimmed string equality
when the conversion raises, automatic fail for a missing key. -/
def compare_key (tol : ℚ) (m : List (String × PyVal)) (key : String)
    (ev : PyVal) : KeyCmp :=
  match m.lookup key with
  | none => KeyCmp.missingKey
  | some v =>
      match py_float? v, py_float? ev with
      | some a, some e => KeyCmp.numCmp (compare_numeric a e tol)
      | _, _ => KeyCmp.strCmp
          ((py_str v).trim.toUpper == (py_str ev).trim.toUpper) v ev

/-- The `expected_values` loop of `score_question`, threading the
`all_passed` flag. -/
def score_keys (tol : ℚ) (m : List (String × PyVal)) :
    List (String × PyVal) → List (String × KeyCmp) × Bool
  | [] => ([], true)
  | (k, ev) :: rest =>
      let kc := compare_key tol m k ev
      let res := score_keys tol m rest
      ((k, kc) :: res.1, kc.passed && res.2)

/-- The shapes of the result dict `score_question` can return; `passed` is
`null` for the qualitative, no-gold and could-not-compare outcomes. -/
inductive ScoreOutcome where
  | qualitativeManual
  | noGold
  | single (c : CompareResult)
  | multi (passed : Bool) (comparisons : List (String × KeyCmp))
  | extracted (c : CompareResult)
  | noCompare
  deriving DecidableEq

/-- `score_question`: the comparison-policy cascade of the harness. The
gold answer is passed in (running the SQL is external I/O); an uncaught
Python exception is an `Except.error`. -/
def score_question (q : Question) (ans : AgentAnswer)
    (gold : Option GoldAnswer) : Except PyError ScoreOutcome :=
  if q.tolerance = Tolerance.qualitative then
    Except.ok ScoreOutcome.qualitativeManual
  else
    match gold with
    | none => Except.ok ScoreOutcome.noGold
    | some _ =>
        match q.expected_value, ans.numeric_result with
        | some ev, NumericResult.scalar a =>
            (py_float_err ev).map (fun e =>
              ScoreOutcome.single
                (compare_numeric a e (tolerance_value q.tolerance)))
        | some _, NumericResult.keyed _ => Except.error PyError.typeError
        | some ev, NumericResult.vnone =>
            match extract_number ans.response with
            | some x =>
                (py_float_err ev).map (fun e =>
                  ScoreOutcome.extracted
                    (compare_numeric x e (tolerance_value q.tolerance)))
            | none => Except.ok ScoreOutcome.noCompare
        | none, nr =>
            match q.expected_values, nr with
            | some evs, NumericResult.keyed m =>
                let res := score_keys (tolerance_value q.tolerance) m evs
                Except.ok (ScoreOutcome.multi res.2 res.1)
            | _, _ => Except.ok ScoreOutcome.noCompare

/-- C5: `compare_numeric` passes iff `|actual| < 0.01` when the expected
value is zero and iff the relative error is at most the tolerance
otherwise; hence it passes on equal nonzero values under any nonnegative
tolerance and on `(0, 0)` under every tolerance; and a question marked
exact is scored with tolerance 0. -/
theorem compare_numeric_law :
    (∀ a e t : ℚ, (compare_numeric a e t).passed = true ↔
        (if e = 0 then |a| < 1 / 100 else |a - e| / |e| ≤ t)) ∧
      (∀ x t : ℚ, x ≠ 0 → 0 ≤ t → (compare_numeric x x t).passed = true) ∧
      (∀ t : ℚ, (compare_numeric 0 0 t).passed = true) ∧
      (∀ (q : Question) (ans : AgentAnswer) (g : GoldAnswer) (e a : ℚ),
        q.tolerance = Tolerance.exact →
          q.expected_value = some (PyVal.num e) →
            ans.numeric_result = NumericResult.scalar a →
              score_question q ans (some g) =
                Except.ok (ScoreOutcome.single (compare_numeric a e 0))) := by
  have hlaw : ∀ a e t : ℚ, (compare_numeric a e t).passed = true ↔
      (if e = 0 then |a| < 1 / 100 else |a - e| / |e| ≤ t) := by
    intro a e t
    by_cases he : e = 0 <;> simp [compare_numeric, he]
  refine ⟨hlaw, ?_, ?_, ?_⟩
  · intro x t hx ht
    rw [hlaw]
    simp [hx, ht]
  · intro t
    rw [hlaw]
    norm_num
  · intro q ans g e a htol hev hnr
    have hq : q.tolerance ≠ Tolerance.qualitative := by
      rw [htol]; intro hc; cases hc
    simp [score_question, hq, hev, hnr, py_float_err, htol, tolerance_value,
      Except.map]

theorem compare_numeric_law_witness :
    (compare_numeric 3 3 (1 / 20)).passed = true ∧
      (compare_numeric 0 0 (1 / 20)).passed = true ∧
      score_question
          { expected_value := some (PyVal.num (13 / 20)),
            expected_values := none, tolerance := Tolerance.exact }
          { response := "", numeric_result := NumericResult.scalar (13 / 20) }
          (some { rows := [] }) =
        Except.ok (ScoreOutcome.single (compare_numeric (13 / 20) (13 / 20) 0)) :=
  ⟨compare_numeric_law.2.1 3 (1 / 20) (by norm_num) (by norm_num),
    compare_numeric_law.2.2.1 (1 / 20),
    compare_numeric_law.2.2.2 _ _ _ (13 / 20) (13 / 20) rfl rfl rfl⟩

theorem score_keys_all_passed (tol : ℚ) (m : List (String × PyVal)) :
    ∀ evs : List (String × PyVal),
      (score_keys tol m evs).2 =
        (score_keys tol m evs).1.all (fun pr => pr.2.passed) := by
  intro evs
  induction evs with
  | nil => rfl
  | cons pr rest ih =>
    obtain ⟨k, ev⟩ := pr
    simp [score_keys, List.all_cons, ih]

theorem score_keys_map (tol : ℚ) (m : List (String × PyVal)) :
    ∀ evs : List (String × PyVal),
      (score_keys tol m evs).1 =
        evs.map (fun pr => (pr.1, compare_key tol m pr.1 pr.2)) := by
  intro evs
  induction evs with
  | nil => rfl
  | cons pr rest ih =>
    obtain ⟨k, ev⟩ := pr
    simp [score_keys, ih]

/-- C9: a question with keyed `expected_values` and a keyed agent answer is
scored without raising; each key is compared independently (numeric
comparison when both sides convert with `float`, case-insensitive trimmed
string equality otherwise, automatic fail for a missing key) and the
overall passed flag is the conjunction of the per-key results. -/
theorem score_question_keyed_law (q : Question) (ans : AgentAnswer)
    (g : GoldAnswer) (evs m : List (String × PyVal))
    (hnq : q.tolerance ≠ Tolerance.qualitative)
    (hev : q.expected_value = none)
    (hevs : q.expected_values = some evs)
    (hnr : ans.numeric_result = NumericResult.keyed m) :
    score_question q ans (some g) = Except.ok (ScoreOutcome.multi
        ((score_keys (tolerance_value q.tolerance) m evs).1.all
          (fun pr => pr.2.passed))
        (score_keys (tolerance_value q.tolerance) m evs).1) ∧
      ((score_keys (tolerance_value q.tolerance) m evs).1 =
        evs.map (fun pr =>
          (pr.1, compare_key (tolerance_value q.tolerance) m pr.1 pr.2))) ∧
      (∀ k ev, m.lookup k = none →
        compare_key (tolerance_value q.tolerance) m k ev =
          KeyCmp.missingKey ∧ KeyCmp.missingKey.passed = false) ∧
      (∀ k ev v a e, m.lookup k = some v → py_float? v = some a →
        py_float? ev = some e →
          compare_key (tolerance_value q.tolerance) m k ev =
            KeyCmp.numCmp
              (compare_numeric a e (tolerance_value q.tolerance))) ∧
      (∀ k ev v, m.lookup k = some v →
        (py_float? v = none ∨ py_float? ev = none) →
          compare_key (tolerance_value q.tolerance) m k ev =
            KeyCmp.strCmp
              ((py_str v).trim.toUpper == (py_str ev).trim.toUpper) v ev) := by
  refine ⟨?_, score_keys_map _ m evs, ?_, ?_, ?_⟩
  · rw [← score_keys_all_passed]
    simp [score_question, hnq, hev, hevs, hnr]
  · intro k ev hk
    exact ⟨by simp [compare_key, hk], rfl⟩
  · intro k ev v a e hk ha he
    simp [compare_key, hk, ha, he]
  · intro k ev v hk hor
    rcases hor with h | h
    · simp [compare_key, hk, h]
    · simp only [compare_key, hk, h]
      cases hx : py_float? v <;> simp

theorem score_question_keyed_law_witness :
    score_question
          { expected_value := none,
            expected_values := some
              [("loss_ratio", PyVal.num (11 / 20)), ("lob", PyVal.str "HO")],
            tolerance := Tolerance.frac (1 / 20) }
          { response := "",
            numeric_result := NumericResult.keyed
              [("loss_ratio", PyVal.num (551 / 1000)),
                ("lob", PyVal.str "ho")] }
          (some { rows := [] }) =
        Except.ok (ScoreOutcome.multi
          ((score_keys (tolerance_value (Tolerance.frac (1 / 20)))
              [("loss_ratio", PyVal.num (551 / 1000)),
                ("lob", PyVal.str "ho")]
              [("loss_ratio", PyVal.num (11 / 20)),
                ("lob", PyVal.str "HO")]).1.all (fun pr => pr.2.passed))
          (score_keys (tolerance_value (Tolerance.frac (1 / 20)))
              [("loss_ratio", PyVal.num (551 / 1000)),
                ("lob", PyVal.str "ho")]
              [("loss_ratio", PyVal.num (11 / 20)),
                ("lob", PyVal.str "HO")]).1) :=
  (score_question_keyed_law _ _ _ _ _
    (by intro hc; cases hc) rfl rfl rfl).1

/-! The Gold Metrics Engine (compute_gold_metrics). -/

/-- The seeded random generator threaded through `compute_gold_metrics`,
modelled as a stream of draw outcomes with a cursor; `draw` models one call
to `random.uniform`, yielding the drawn value. -/
structure Rng where
  stream : ℕ → ℚ
  idx : ℕ

def Rng.draw (r : Rng) : ℚ × Rng :=
  (r.stream r.idx, { stream := r.stream, idx := r.idx + 1 })

/-- The calendar year of a day number (days since 1970-01-01), modelling
`int(date_string[:4])` on the ISO rendering of the date. -/
def civilYear (z : ℤ) : ℤ :=
  let za := z + 719468
  let era := (if 0 ≤ za then za else za - 146096) / 146097
  let doe := za - era * 146097
  let yoe := (doe - doe / 1460 + doe / 36524 - doe / 146096) / 365
  let y := yoe + era * 400
  let doy := doe - (365 * yoe + yoe / 4 - yoe / 100)
  let mp := (5 * doy + 2) / 153
  let m := if mp < 10 then mp + 3 else mp - 9
  if m ≤ 2 then y + 1 else y

/-- The accumulator one `lob_year[key]` dict holds before the derived
fields are filled in. -/
structure LobYearAcc where
  line_of_business : Lob
  policy_year : ℤ
  policy_count : ℕ
  total_exposure_units : ℚ
  written_premium : ℚ
  earned_premium : ℚ
  claim_count : ℕ
  open_claim_count : ℕ
  closed_claim_count : ℕ
  paid_loss : ℚ
  paid_alae : ℚ
  paid_ulae : ℚ
  salvage : ℚ
  subrogation : ℚ
  deriving DecidableEq

def initAcc (lob : Lob) (year : ℤ) : LobYearAcc :=
  { line_of_business := lob, policy_year := year, policy_count := 0,
    total_exposure_units := 0, written_premium := 0, earned_premium := 0,
    claim_count := 0, open_claim_count := 0, closed_claim_count := 0,
    paid_loss := 0, paid_alae := 0, paid_ulae := 0, salvage := 0,
    subrogation := 0 }

/-- A finalized row of `gold_metrics.lob_year_summary`. -/
structure LobYearMetrics where
  line_of_business : Lob
  policy_year : ℤ
  policy_count : ℕ
  total_exposure_units : ℚ
  written_premium : ℚ
  earned_premium : ℚ
  claim_count : ℕ
  open_claim_count : ℕ
  closed_claim_count : ℕ
  paid_loss : ℚ
  paid_alae : ℚ
  paid_ulae : ℚ
  total_lae : ℚ
  salvage : ℚ
  subrogation : ℚ
  net_incurred_loss : ℚ
  total_incurred : ℚ
  frequency : ℚ
  severity : ℚ
  pure_premium : ℚ
  average_premium : ℚ
  loss_ratio : ℚ
  lae_ratio : ℚ
  combined_loss_lae_ratio : ℚ
  deriving DecidableEq

/-- A row of `gold_metrics.underwriting_metrics`. -/
structure UwMetrics where
  line_of_business : Lob
  policy_year : ℤ
  written_premium : ℚ
  earned_premium : ℚ
  net_incurred_loss : ℚ
  total_lae : ℚ
  underwriting_expense : ℚ
  underwriting_expense_ratio : ℚ
  operating_expense : ℚ
  operating_expense_ratio : ℚ
  loss_ratio : ℚ
  lae_ratio : ℚ
  combined_ratio : ℚ
  underwriting_profit : ℚ
  underwriting_profit_ratio : ℚ
  deriving DecidableEq

/-- The accumulator one `qm_by_key[key]` dict holds. -/
structure QuoteAcc where
  line_of_business : Lob
  quote_year : ℤ
  total_quotes : ℕ
  bound_quotes : ℕ
  declined_quotes : ℕ
  expired_quotes : ℕ
  lost_quotes : ℕ
  total_quoted_premium : ℚ
  bound_quoted_premium : ℚ
  deriving DecidableEq

def initQuoteAcc (lob : Lob) (year : ℤ) : QuoteAcc :=
  { line_of_business := lob, quote_year := year, total_quotes := 0,
    bound_quotes := 0, declined_quotes := 0, expired_quotes := 0,
    lost_quotes := 0, total_quoted_premium := 0, bound_quoted_premium := 0 }

/-- A row of `gold_metrics.quote_bind_metrics`. -/
structure QuoteMetrics where
  line_of_business : Lob
  quote_year : ℤ
  total_quotes : ℕ
  bound_quotes : ℕ
  declined_quotes : ℕ
  expired_quotes : ℕ
  lost_quotes : ℕ
  total_quoted_premium : ℚ
  bound_quoted_premium : ℚ
  close_ratio : ℚ
  average_quoted_premium : ℚ
  deriving DecidableEq

/-- The accumulator one `retention_by_lob[lob]` dict holds. -/
structure RetAcc where
  line_of_business : Lob
  total_policies : ℕ
  renewal_policies : ℕ
  new_policies : ℕ
  deriving DecidableEq

def initRetAcc (lob : Lob) : RetAcc :=
  { line_of_business := lob, total_policies := 0, renewal_policies := 0,
    new_policies := 0 }

/-- A row of `gold_metrics.retention_metrics`. -/
structure RetentionMetrics where
  line_of_business : Lob
  total_policies : ℕ
  renewal_policies : ℕ
  new_policies : ℕ
  retention_ratio : ℚ
  new_business_ratio : ℚ
  deriving DecidableEq

/-- Insertion-ordered get-or-init-then-mutate on an association list,
modelling the Python dict accumulation pattern. -/
def updAssoc {κ α : Type} [DecidableEq κ] (key : κ) (init : α) (f : α → α) :
    List (κ × α) → List (κ × α)
  | [] => [(key, f init)]
  | (k, a) :: rest =>
      if k = key then (k, f a) :: rest
      else (k, a) :: updAssoc key init f rest

/-- The open-claim statuses of the `lob_year` loop. -/
def openStatus (s : ClaimStatus) : Bool :=
  match s with
  | ClaimStatus.OPEN => true
  | ClaimStatus.REOPENED => true
  | ClaimStatus.LITIGATION => true
  | ClaimStatus.SUBROGATION => true
  | ClaimStatus.CLOSED => false

/-- Sum of the non-reversal WRITTEN premium transactions of one policy. -/
def written_sum (premTxns : List PremiumTxn) (pid : ℕ) : ℚ :=
  ((premTxns.filter (fun p => !p.is_reversal &&
      p.transaction_type == PTType.WRITTEN && p.policy_id == pid)).map
    (fun p => p.amount)).sum

/-- Sum of the non-reversal EARNED premium transactions of one policy. -/
def earned_sum (premTxns : List PremiumTxn) (pid : ℕ) : ℚ :=
  ((premTxns.filter (fun p => !p.is_reversal &&
      p.transaction_type == PTType.EARNED && p.policy_id == pid)).map
    (fun p => p.amount)).sum

/-- The per-policy mutation of the `lob_year` accumulator, with the
resolved written and earned premium and the policy's active claims. -/
def addPolicy (pol : PolicyRow) (wp ep : ℚ) (pcl : List ClaimRow)
    (m : LobYearAcc) : LobYearAcc :=
  { m with
    policy_count := m.policy_count + 1
    total_exposure_units := m.total_exposure_units + pol.total_exposure_units
    written_premium := m.written_premium + wp
    earned_premium := m.earned_premium + ep
    claim_count := m.claim_count + pcl.length
    open_claim_count := m.open_claim_count +
      (pcl.filter (fun c => openStatus c.claim_status)).length
    closed_claim_count := m.closed_claim_count +
      (pcl.filter (fun c => !openStatus c.claim_status)).length
    paid_loss := m.paid_loss + (pcl.map (fun c => c.paid_loss_amount)).sum
    paid_alae := m.paid_alae + (pcl.map (fun c => c.paid_alae_amount)).sum
    paid_ulae := m.paid_ulae + (pcl.map (fun c => c.paid_ulae_amount)).sum
    salvage := m.salvage + (pcl.map (fun c => c.salvage_amount)).sum
    subrogation := m.subrogation +
      (pcl.map (fun c => c.subrogation_amount)).sum }

/-- One iteration of the `lob_year` loop: fall back to the policy's premium
when it has no WRITTEN transactions and to `wp * uniform(0.7, 1.0)` - a
fresh random draw - when it has no EARNED transactions. -/
def lob_year_step (claims : List ClaimRow) (premTxns : List PremiumTxn)
    (pol : PolicyRow) (st : List ((Lob × ℤ) × LobYearAcc) × Rng) :
    List ((Lob × ℤ) × LobYearAcc) × Rng :=
  let key := (pol.line_of_business, civilYear pol.effective_date)
  let wp0 := written_sum premTxns pol.policy_id
  let wp := if wp0 = 0 then pol.total_premium else wp0
  let ep0 := earned_sum premTxns pol.policy_id
  let epr : ℚ × Rng :=
    if ep0 = 0 then
      let d := st.2.draw
      (wp * d.1, d.2)
    else (ep0, st.2)
  let pcl := (get_active_claims claims).filter
    (fun c => c.policy_id == pol.policy_id)
  (updAssoc key (initAcc key.1 key.2) (addPolicy pol wp epr.1 pcl) st.1,
    epr.2)

def lob_year_fold (claims : List ClaimRow) (premTxns : List PremiumTxn) :
    List PolicyRow → List ((Lob × ℤ) × LobYearAcc) × Rng →
      List ((Lob × ℤ) × LobYearAcc) × Rng
  | [], st => st
  | pol :: rest, st =>
      lob_year_fold claims premTxns rest (lob_year_step claims premTxns pol st)

/-- The derived-field computation of the `gold_lob_year` loop, with the
source's denominator floor `max(d, 1)` and rounding discipline. -/
def finalizeLobYear (m : LobYearAcc) : LobYearMetrics :=
  let total_lae := round2 (m.paid_alae + m.paid_ulae)
  let net := round2 (m.paid_loss - m.salvage - m.subrogation)
  { line_of_business := m.line_of_business
    policy_year := m.policy_year
    policy_count := m.policy_count
    total_exposure_units := round2 m.total_exposure_units
    written_premium := round2 m.written_premium
    earned_premium := round2 m.earned_premium
    claim_count := m.claim_count
    open_claim_count := m.open_claim_count
    closed_claim_count := m.closed_claim_count
    paid_loss := round2 m.paid_loss
    paid_alae := round2 m.paid_alae
    paid_ulae := round2 m.paid_ulae
    total_lae := total_lae
    salvage := round2 m.salvage
    subrogation := round2 m.subrogation
    net_incurred_loss := net
    total_incurred := round2
      (m.paid_loss + m.paid_alae + m.paid_ulae - m.salvage - m.subrogation)
    frequency := roundTo 6 ((m.claim_count : ℚ) / max m.total_exposure_units 1)
    severity := round2 (net / max (m.claim_count : ℚ) 1)
    pure_premium := round2 (net / max m.total_exposure_units 1)
    average_premium := round2 (m.written_premium / max (m.policy_count : ℚ) 1)
    loss_ratio := roundTo 6 (net / max m.earned_premium 1)
    lae_ratio := roundTo 6 (total_lae / max m.earned_premium 1)
    combined_loss_lae_ratio := roundTo 6
      ((net + total_lae) / max m.earned_premium 1) }

/-- One iteration of the UW-metrics loop: the expense ratio is a fresh
uniform draw in `[0.25, 0.40]` per group. -/
def uw_step (m : LobYearMetrics) (rng : Rng) : UwMetrics × Rng :=
  let d := rng.draw
  let uw_expense_ratio := roundTo 6 d.1
  let uw_expense := round2 (m.written_premium * uw_expense_ratio)
  let operating_expense := round2 (uw_expense + m.total_lae)
  let uw_profit := round2
    (m.earned_premium - m.net_incurred_loss - m.total_lae - uw_expense)
  ({ line_of_business := m.line_of_business
     policy_year := m.policy_year
     written_premium := m.written_premium
     earned_premium := m.earned_premium
     net_incurred_loss := m.net_incurred_loss
     total_lae := m.total_lae
     underwriting_expense := uw_expense
     underwriting_expense_ratio := uw_expense_ratio
     operating_expense := operating_expense
     operating_expense_ratio := roundTo 6
       (operating_expense / max m.earned_premium 1)
     loss_ratio := m.loss_ratio
     lae_ratio := m.lae_ratio
     combined_ratio := roundTo 6
       (m.loss_ratio + m.lae_ratio + uw_expense_ratio)
     underwriting_profit := uw_profit
     underwriting_profit_ratio := roundTo 6
       (uw_profit / max m.earned_premium 1) }, d.2)

def uw_fold : List LobYearMetrics → Rng → List UwMetrics × Rng
  | [], rng => ([], rng)
  | m :: rest, rng =>
      let r1 := uw_step m rng
      let res := uw_fold rest r1.2
      (r1.1 :: res.1, res.2)

/-- The per-quote mutation of the quote-metrics accumulator. -/
def addQuote (q : QuoteRow) (a : QuoteAcc) : QuoteAcc :=
  let a1 := { a with
    total_quotes := a.total_quotes + 1
    total_quoted_premium := a.total_quoted_premium + q.quoted_premium }
  match q.status with
  | QuoteStatus.BOUND =>
      { a1 with
        bound_quotes := a1.bound_quotes + 1
        bound_quoted_premium := a1.bound_quoted_premium + q.quoted_premium }
  | QuoteStatus.DECLINED => { a1 with declined_quotes := a1.declined_quotes + 1 }
  | QuoteStatus.EXPIRED => { a1 with expired_quotes := a1.expired_quotes + 1 }
  | QuoteStatus.LOST => { a1 with lost_quotes := a1.lost_quotes + 1 }
  | QuoteStatus.QUOTED => a1

def quote_fold : List QuoteRow →
    List ((Lob × ℤ) × QuoteAcc) → List ((Lob × ℤ) × QuoteAcc)
  | [], acc => acc
  | q :: rest, acc =>
      quote_fold rest (updAssoc (q.line_of_business, civilYear q.quote_date)
        (initQuoteAcc q.line_of_business (civilYear q.quote_date))
        (addQuote q) acc)

def finalizeQuote (a : QuoteAcc) : QuoteMetrics :=
  { line_of_business := a.line_of_business
    quote_year := a.quote_year
    total_quotes := a.total_quotes
    bound_quotes := a.bound_quotes
    declined_quotes := a.declined_quotes
    expired_quotes := a.expired_quotes
    lost_quotes := a.lost_quotes
    total_quoted_premium := round2 a.total_quoted_premium
    bound_quoted_premium := round2 a.bound_quoted_premium
    close_ratio := roundTo 6
      ((a.bound_quotes : ℚ) / max (a.total_quotes : ℚ) 1)
    average_quoted_premium := round2
      (a.total_quoted_premium / max (a.total_quotes : ℚ) 1) }

/-- The per-policy mutation of the retention accumulator: a policy counts
as a renewal iff `renewal_of_policy_id` is non-null. -/
def addRet (pol : PolicyRow) (a : RetAcc) : RetAcc :=
  let a1 := { a with total_policies := a.total_policies + 1 }
  match pol.renewal_of_policy_id with
  | some _ => { a1 with renewal_policies := a1.renewal_policies + 1 }
  | none => { a1 with new_policies := a1.new_policies + 1 }

def retention_fold : List PolicyRow →
    List (Lob × RetAcc) → List (Lob × RetAcc)
  | [], acc => acc
  | pol :: rest, acc =>
      retention_fold rest (updAssoc pol.line_of_business
        (initRetAcc pol.line_of_business) (addRet pol) acc)

def finalizeRetention (a : RetAcc) : RetentionMetrics :=
  { line_of_business := a.line_of_business
    total_policies := a.total_policies
    renewal_policies := a.renewal_policies
    new_policies := a.new_policies
    retention_ratio := roundTo 6
      ((a.renewal_policies : ℚ) / max (a.total_policies : ℚ) 1)
    new_business_ratio := roundTo 6
      ((a.new_policies : ℚ) / max (a.total_policies : ℚ) 1) }

/-- The four result sets of `compute_gold_metrics`. -/
structure GoldOutput where
  gold_lob_year : List LobYearMetrics
  gold_uw : List UwMetrics
  gold_quotes : List QuoteMetrics
  gold_retention : List RetentionMetrics
  deriving DecidableEq

/-- `compute_gold_metrics`: pure aggregation over the current non-deleted
policies, non-deleted claims, non-reversal premium transactions and quotes
(the `coverages` argument is accepted but, as in the source, unused), save
for the two fresh random draws (the earned-premium fallback and the
underwriting expense ratio). -/
def compute_gold_metrics (policies : List PolicyRow) (claims : List ClaimRow)
    (premium_txns : List PremiumTxn) (coverages : List CoverageRow)
    (quotes : List QuoteRow) (rng : Rng) : GoldOutput :=
  let current_policies := get_current_policies policies
  let st := lob_year_fold claims premium_txns current_policies ([], rng)
  let gold_lob_year := st.1.map (fun pr => finalizeLobYear pr.2)
  let uw := uw_fold gold_lob_year st.2
  { gold_lob_year := gold_lob_year
    gold_uw := uw.1
    gold_quotes := (quote_fold quotes []).map (fun pr => finalizeQuote pr.2)
    gold_retention :=
      (retention_fold current_policies []).map
        (fun pr => finalizeRetention pr.2) }

/-- When a policy has a nonzero EARNED sum, its `lob_year` step consumes no
random draw: the accumulator update is draw-free and the generator state
passes through unchanged. -/
theorem lob_year_step_no_draw (claims : List ClaimRow)
    (premTxns : List PremiumTxn) (pol : PolicyRow)
    (acc : List ((Lob × ℤ) × LobYearAcc)) (r : Rng)
    (h : earned_sum premTxns pol.policy_id ≠ 0) :
    lob_year_step claims premTxns pol (acc, r) =
      (updAssoc (pol.line_of_business, civilYear pol.effective_date)
        (initAcc pol.line_of_business (civilYear pol.effective_date))
        (addPolicy pol
          (if written_sum premTxns pol.policy_id = 0 then pol.total_premium
            else written_sum premTxns pol.policy_id)
          (earned_sum premTxns pol.policy_id)
          ((get_active_claims claims).filter
            (fun c => c.policy_id == pol.policy_id))) acc, r) := by
  simp [lob_year_step, h]

theorem lob_year_fold_no_draw (claims : List ClaimRow)
    (premTxns : List PremiumTxn) :
    ∀ (pols : List PolicyRow) (acc : List ((Lob × ℤ) × LobYearAcc))
      (r1 r2 : Rng),
      (∀ pol ∈ pols, earned_sum premTxns pol.policy_id ≠ 0) →
        (lob_year_fold claims premTxns pols (acc, r1)).1 =
          (lob_year_fold claims premTxns pols (acc, r2)).1 := by
  intro pols
  induction pols with
  | nil => intro acc r1 r2 _; rfl
  | cons pol rest ih =>
    intro acc r1 r2 hv
    rw [lob_year_fold, lob_year_fold,
      lob_year_step_no_draw claims premTxns pol acc r1
        (hv pol (List.mem_cons_self _ _)),
      lob_year_step_no_draw claims premTxns pol acc r2
        (hv pol (List.mem_cons_self _ _))]
    exact ih _ _ _ (fun p hp => hv p (List.mem_cons_of_mem _ hp))

/-- The fields of an underwriting-metrics row that are not derived from the
per-group expense-ratio draw. -/
def uw_stable (u : UwMetrics) : Lob × ℤ × ℚ × ℚ × ℚ × ℚ × ℚ × ℚ :=
  (u.line_of_business, u.policy_year, u.written_premium, u.earned_premium,
    u.net_incurred_loss, u.total_lae, u.loss_ratio, u.lae_ratio)

theorem uw_fold_stable :
    ∀ (ms : List LobYearMetrics) (r : Rng),
      ((uw_fold ms r).1).map uw_stable = ms.map (fun m =>
        (m.line_of_business, m.policy_year, m.written_premium,
          m.earned_premium, m.net_incurred_loss, m.total_lae, m.loss_ratio,
          m.lae_ratio)) := by
  intro ms
  induction ms with
  | nil => intro r; rfl
  | cons m rest ih =>
    intro r
    simp [uw_fold, uw_step, uw_stable, ih]

/-- C4 (amended): two runs of `compute_gold_metrics` on the same frozen
entity sets always agree on the quote and retention aggregates; when every
current policy has a nonzero EARNED-transaction sum (so the earned-premium
fallback draw is never consumed) they also agree on the whole
`lob_year` summary and on every underwriting field not derived from the
expense-ratio draw. -/
theorem gold_metrics_deterministic_modulo_draws (policies : List PolicyRow)
    (claims : List ClaimRow) (premium_txns : List PremiumTxn)
    (coverages : List CoverageRow) (quotes : List QuoteRow)
    (rng1 rng2 : Rng) :
    ((compute_gold_metrics policies claims premium_txns coverages quotes
        rng1).gold_quotes =
      (compute_gold_metrics policies claims premium_txns coverages quotes
        rng2).gold_quotes) ∧
    ((compute_gold_metrics policies claims premium_txns coverages quotes
        rng1).gold_retention =
      (compute_gold_metrics policies claims premium_txns coverages quotes
        rng2).gold_retention) ∧
    ((∀ pol ∈ get_current_policies policies,
        earned_sum premium_txns pol.policy_id ≠ 0) →
      ((compute_gold_metrics policies claims premium_txns coverages quotes
          rng1).gold_lob_year =
        (compute_gold_metrics policies claims premium_txns coverages quotes
          rng2).gold_lob_year) ∧
      ((compute_gold_metrics policies claims premium_txns coverages quotes
          rng1).gold_uw.map uw_stable =
        (compute_gold_metrics policies claims premium_txns coverages quotes
          rng2).gold_uw.map uw_stable)) := by
  refine ⟨rfl, rfl, ?_⟩
  intro h
  have hly : (compute_gold_metrics policies claims premium_txns coverages
      quotes rng1).gold_lob_year =
      (compute_gold_metrics policies claims premium_txns coverages quotes
        rng2).gold_lob_year := by
    show ((lob_year_fold claims premium_txns (get_current_policies policies)
        ([], rng1)).1.map (fun pr => finalizeLobYear pr.2)) =
      ((lob_year_fold claims premium_txns (get_current_policies policies)
        ([], rng2)).1.map (fun pr => finalizeLobYear pr.2))
    rw [lob_year_fold_no_draw claims premium_txns _ [] rng1 rng2 h]
  have hstable : ∀ rng : Rng,
      (compute_gold_metrics policies claims premium_txns coverages quotes
        rng).gold_uw.map uw_stable =
      (compute_gold_metrics policies claims premium_txns coverages quotes
        rng).gold_lob_year.map (fun m =>
          (m.line_of_business, m.policy_year, m.written_premium,
            m.earned_premium, m.net_incurred_loss, m.total_lae, m.loss_ratio,
            m.lae_ratio)) := by
    intro rng
    exact uw_fold_stable _ _
  refine ⟨hly, ?_⟩
  rw [hstable rng1, hstable rng2, hly]

theorem get_current_wPolicyRow :
    get_current_policies [wPolicyRow] = [wPolicyRow] := by
  simp [get_current_policies, wPolicyRow, mkVersionRow_is_current,
    mkVersionRow_is_deleted, wPolicyDraw, PolicyDraw.numVersions,
    wVersionDraw]

/-- A single EARNED premium transaction for policy 1. -/
def wEarnedTxn : PremiumTxn :=
  { transaction_id := 1, policy_id := 1, line_of_business := Lob.HO,
    transaction_type := PTType.EARNED, transaction_date := 0,
    accounting_date := 0, booking_date := 0, effective_date := 0,
    amount := 100, agent_id := 1, is_reversal := false,
    reversal_of_transaction_id := none,
    source_system := SourceSystem.MANUAL_ENTRY, created_at := 0 }

def wRngA : Rng := { stream := fun _ => 3 / 10, idx := 0 }

def wRngB : Rng := { stream := fun _ => 7 / 20, idx := 0 }

theorem gold_metrics_deterministic_modulo_draws_witness :
    ((compute_gold_metrics [wPolicyRow] [] [wEarnedTxn] [] [] wRngA).gold_lob_year =
      (compute_gold_metrics [wPolicyRow] [] [wEarnedTxn] [] [] wRngB).gold_lob_year) ∧
    ((compute_gold_metrics [wPolicyRow] [] [wEarnedTxn] [] [] wRngA).gold_uw.map
        uw_stable =
      (compute_gold_metrics [wPolicyRow] [] [wEarnedTxn] [] [] wRngB).gold_uw.map
        uw_stable) :=
  (gold_metrics_deterministic_modulo_draws [wPolicyRow] [] [wEarnedTxn] [] []
    wRngA wRngB).2.2 (by
      intro pol hpol
      rw [get_current_wPolicyRow, List.mem_singleton] at hpol
      subst hpol
      show earned_sum [wEarnedTxn] wPolicyRow.policy_id ≠ 0
      have hpid : wPolicyRow.policy_id = 1 := rfl
      rw [hpid]
      simp [earned_sum, wEarnedTxn])

/-- Two draw streams that agree everywhere except on the first draw: the
earned-premium fallback draws 0.7 versus 0.9 (both inside `[0.7, 1.0]`),
while the underwriting expense-ratio draw is 0.3 in both runs. -/
def cexRng1 : Rng :=
  { stream := fun n => if n = 0 then 7 / 10 else 3 / 10
    idx := 0 }

def cexRng2 : Rng :=
  { stream := fun n => if n = 0 then 9 / 10 else 3 / 10
    idx := 0 }

/-- C4 (counterexample to the claim as stated): on a frozen entity set with
one current policy and no premium transactions, two runs that draw the same
underwriting expense ratio (so every expense-ratio-derived field could
agree) still disagree on `earned_premium` in the `lob_year` summary - a
field not derived from the expense-ratio draw - because the earned-premium
fallback `wp * uniform(0.7, 1.0)` is a second, independent draw inside
`compute_gold_metrics`. -/
theorem gold_metrics_not_reproducible :
    ((compute_gold_metrics [wPolicyRow] [] [] [] [] cexRng1).gold_uw.map
        (fun u => u.underwriting_expense_ratio) =
      (compute_gold_metrics [wPolicyRow] [] [] [] [] cexRng2).gold_uw.map
        (fun u => u.underwriting_expense_ratio)) ∧
      (compute_gold_metrics [wPolicyRow] [] [] [] [] cexRng1).gold_lob_year.map
          (fun m => m.earned_premium) ≠
        (compute_gold_metrics [wPolicyRow] [] [] [] [] cexRng2).gold_lob_year.map
          (fun m => m.earned_premium) := by
  have hwp : wPolicyRow.total_premium = 1000 := by
    simp [wPolicyRow, mkVersionRow, wPolicyDraw]
  have h1 : ∀ r : Rng,
      (compute_gold_metrics [wPolicyRow] [] [] [] [] r).gold_lob_year.map
        (fun m => m.earned_premium) =
      [round2 (wPolicyRow.total_premium * r.stream r.idx)] := by
    intro r
    simp [compute_gold_metrics, get_current_wPolicyRow, lob_year_fold,
      lob_year_step, written_sum, earned_sum, get_active_claims, updAssoc,
      Rng.draw, addPolicy, initAcc, finalizeLobYear]
  have h2 : ∀ r : Rng,
      (compute_gold_metrics [wPolicyRow] [] [] [] [] r).gold_uw.map
        (fun u => u.underwriting_expense_ratio) =
      [roundTo 6 (r.stream (r.idx + 1))] := by
    intro r
    simp [compute_gold_metrics, get_current_wPolicyRow, lob_year_fold,
      lob_year_step, written_sum, earned_sum, get_active_claims, updAssoc,
      Rng.draw, addPolicy, initAcc, finalizeLobYear, uw_fold, uw_step]
  constructor
  · rw [h2 cexRng1, h2 cexRng2]
    simp [cexRng1, cexRng2]
  · rw [h1 cexRng1, h1 cexRng2, hwp]
    intro hc
    simp only [cexRng1, cexRng2, List.cons.injEq, and_true] at hc
    norm_num [round2, roundTo, round_eq] at hc

end InsuranceData
